import Mathlib

/-!
Verification development for the Shopify synchronization engine
(`app/services/shopify_sync_service.py` together with the table
definitions in `app/models/shopify_data.py` and the token lookup in
`app/services/auth_service.py`).

The Python service is shallowly embedded as pure Lean functions over an
explicit database state.  Wall-clock reads (`datetime.utcnow()` and the
`func.now()` server default) are modelled by a strictly increasing `Nat`
clock threaded through the state; `decimal.Decimal` is modelled by an
exact sign/mantissa/scale record; JSON records arriving from the GraphQL
API are modelled as typed structures whose `Option` fields mirror the
`.get(...)` accesses of the source.
-/

namespace SyncModel

/-- Update the first element of a list satisfying `p` (the SQLAlchemy
`query(...).first()` row that the service then mutates and commits). -/
def updateFirst (p : α → Bool) (f : α → α) : List α → List α
  | [] => []
  | x :: xs => if p x then f x :: xs else x :: updateFirst p f xs

/-- Worker for `replaceL`, structurally recursive on a fuel that always
equals the length of the list argument (a match consumes `pat.length`
elements and exactly that much fuel). -/
def replaceFuel (pat rep : List Char) : Nat → List Char → List Char
  | _, [] => []
  | 0, l => l
  | fuel + 1, c :: cs =>
    if pat ≠ [] ∧ pat.isPrefixOf (c :: cs) then
      rep ++ replaceFuel pat rep fuel (List.drop (pat.length - 1) cs)
    else
      c :: replaceFuel pat rep fuel cs

/-- Python `str.replace(pat, rep)` over character lists: every
(non-overlapping, leftmost-first) occurrence of `pat` is replaced by
`rep`.  An empty pattern leaves the input unchanged (that case never
arises in the modelled code). -/
def replaceL (pat rep l : List Char) : List Char :=
  replaceFuel pat rep l.length l

/-- Python `str.replace` on strings. -/
def pyReplace (s pat rep : String) : String :=
  String.mk (replaceL pat.toList rep.toList s.toList)

/-- Python substring test `needle in hay` over character lists. -/
def containsL (needle : List Char) : List Char → Bool
  | [] => needle.isEmpty
  | c :: cs => needle.isPrefixOf (c :: cs) || containsL needle cs

/-- Python substring test `needle in hay` on strings. -/
def strContains (hay needle : String) : Bool :=
  containsL needle.toList hay.toList

/-! ### Fixed-point decimals

Model of the subset of `decimal.Decimal` exercised by the service: the
service always builds decimals via `Decimal(str(x))` from plain
fixed-point literals (optional sign, digits, optional fraction).  The
value is `(-1)^sign * mant / 10^scale`; like Python's `Decimal`, the
representation keeps trailing zeros (`scale` is preserved). -/

structure Dec where
  sign : Bool
  mant : Nat
  scale : Nat
deriving DecidableEq, Repr

/-- Value of a digit string (leading zeros collapse, as in Decimal's
normalised coefficient). -/
def digitsVal (ds : List Char) : Nat :=
  ds.foldl (fun a c => a * 10 + (c.toNat - 48)) 0

/-- `Decimal(str(s))` on a plain fixed-point literal; `none` models the
`InvalidOperation` exception raised on malformed input.  Exponent forms
and special values (`NaN`, `Infinity`) are outside the modelled subset:
Shopify money amounts are plain fixed-point strings. -/
def parseDec (s : String) : Option Dec :=
  let cs := s.toList
  let signed : Bool × List Char :=
    match cs with
    | '-' :: rest => (true, rest)
    | '+' :: rest => (false, rest)
    | _ => (false, cs)
  match signed.2.splitOn '.' with
  | [intPart] =>
    if intPart ≠ [] ∧ intPart.all Char.isDigit then
      some ⟨signed.1, digitsVal intPart, 0⟩
    else none
  | [intPart, fracPart] =>
    if (intPart ≠ [] ∨ fracPart ≠ []) ∧ intPart.all Char.isDigit ∧
        fracPart.all Char.isDigit then
      some ⟨signed.1, digitsVal (intPart ++ fracPart), fracPart.length⟩
    else none
  | _ => none

/-- Zero-padding helper for `decRepr`. -/
def padZeros (n : Nat) (ds : List Char) : List Char :=
  List.replicate (n - ds.length) '0' ++ ds

/-- Python `str(Decimal)` for the fixed-point subset: digits of the
coefficient with the decimal point inserted `scale` places from the
right, zero-padded so at least one digit precedes the point. -/
def decRepr (d : Dec) : String :=
  let ds := (Nat.repr d.mant).toList
  let sgn : List Char := if d.sign then ['-'] else []
  if d.scale = 0 then String.mk (sgn ++ ds)
  else
    let padded := padZeros (d.scale + 1) ds
    String.mk (sgn ++ padded.take (padded.length - d.scale) ++ ['.'] ++
      padded.drop (padded.length - d.scale))

/-- Signed integer view of a decimal scaled to `sc ≥ scale` places. -/
def decToInt (d : Dec) (sc : Nat) : Int :=
  (if d.sign then -(d.mant : Int) else (d.mant : Int)) * (10 : Int) ^ (sc - d.scale)

/-- Decimal addition: exponents align to the smaller exponent (larger
scale), exactly as Python's `Decimal.__add__` (context rounding never
triggers at the magnitudes the service handles). -/
def decAdd (a b : Dec) : Dec :=
  let sc := max a.scale b.scale
  let s : Int := decToInt a sc + decToInt b sc
  ⟨if s < 0 then true else if 0 < s then false else (a.sign && b.sign),
    s.natAbs, sc⟩

/-! ### Timestamps

Model of `datetime` values and of the subset of
`datetime.fromisoformat` exercised by Shopify timestamps: whole-second
`YYYY-MM-DDTHH:MM:SS` strings, optionally followed by a numeric
`±HH:MM` offset.  `tzOffset` is the offset in minutes east of UTC;
`none` is a naive datetime (no `tzinfo`). -/

structure PyDateTime where
  year : Nat
  month : Nat
  day : Nat
  hour : Nat
  minute : Nat
  second : Nat
  tzOffset : Option Int
deriving DecidableEq, Repr

/-- Two-digit field parser (`none` models `ValueError`). -/
def parse2 (c1 c2 : Char) : Option Nat :=
  if c1.isDigit && c2.isDigit then
    some ((c1.toNat - 48) * 10 + (c2.toNat - 48))
  else none

/-- Gregorian leap-year rule (as `calendar.isleap`). -/
def isLeap (y : Nat) : Bool :=
  (y % 4 == 0 && y % 100 != 0) || y % 400 == 0

/-- Days in a month, for `datetime`'s range validation. -/
def daysInMonth (y m : Nat) : Nat :=
  if m = 2 then (if isLeap y then 29 else 28)
  else if m = 4 ∨ m = 6 ∨ m = 9 ∨ m = 11 then 30
  else 31

/-- Range validation performed by the `datetime` constructor. -/
def mkDT (y mo d h mi s : Nat) (tz : Option Int) : Option PyDateTime :=
  if 1 ≤ y ∧ y ≤ 9999 ∧ 1 ≤ mo ∧ mo ≤ 12 ∧ 1 ≤ d ∧ d ≤ daysInMonth y mo ∧
      h ≤ 23 ∧ mi ≤ 59 ∧ s ≤ 59 then
    some ⟨y, mo, d, h, mi, s, tz⟩
  else none

/-- `datetime.fromisoformat` on the whole-second subset.  Note that it
performs no UTC conversion: an explicit offset is kept verbatim as the
result's `tzinfo`, and a string without offset yields a naive value. -/
def pyFromIsoL (cs : List Char) : Option PyDateTime :=
  match cs with
  | [y1, y2, y3, y4, '-', m1, m2, '-', d1, d2, 'T',
     h1, h2, ':', n1, n2, ':', s1, s2] => do
    let yh ← parse2 y1 y2
    let yl ← parse2 y3 y4
    let mo ← parse2 m1 m2
    let d ← parse2 d1 d2
    let h ← parse2 h1 h2
    let mi ← parse2 n1 n2
    let s ← parse2 s1 s2
    mkDT (yh * 100 + yl) mo d h mi s none
  | [y1, y2, y3, y4, '-', m1, m2, '-', d1, d2, 'T',
     h1, h2, ':', n1, n2, ':', s1, s2, sg, o1, o2, ':', o3, o4] => do
    let yh ← parse2 y1 y2
    let yl ← parse2 y3 y4
    let mo ← parse2 m1 m2
    let d ← parse2 d1 d2
    let h ← parse2 h1 h2
    let mi ← parse2 n1 n2
    let s ← parse2 s1 s2
    let oh ← parse2 o1 o2
    let om ← parse2 o3 o4
    if om ≤ 59 ∧ oh * 60 + om ≤ 1439 then
      if sg = '+' then mkDT (yh * 100 + yl) mo d h mi s (some ((oh * 60 + om : Nat) : Int))
      else if sg = '-' then mkDT (yh * 100 + yl) mo d h mi s (some (-((oh * 60 + om : Nat) : Int)))
      else none
    else none
  | _ => none

/-- `ShopifySyncService._parse_datetime`: branch on a literal trailing
`Z` (parsed with the `Z` stripped), else on the presence of `+` or of
more than two `-` (parsed after `.replace("Z", "+00:00")`, a no-op at
that point since no `Z` remains), else parsed as-is; any parse failure
or falsy input yields `None` instead of an exception. -/
def parse_datetime (input : Option String) : Option PyDateTime :=
  match input with
  | none => none
  | some s =>
    let cs := s.toList
    if cs = [] then none
    else if cs.getLast? = some 'Z' then pyFromIsoL cs.dropLast
    else if cs.contains '+' || 2 < cs.count '-' then
      pyFromIsoL (replaceL ['Z'] ['+', '0', '0', ':', '0', '0'] cs)
    else pyFromIsoL cs

/-! ### Python truthiness helpers for `.get(...)`-style accesses -/

/-- Truthiness of an optional string (`if d.get(k):`): absent or empty
is falsy. -/
def truthyStr : Option String → Bool
  | none => false
  | some s => s != ""

/-- Keep an optional string only when truthy (used for tracking
numbers/urls collection). -/
def truthyOptStr : Option String → Option String
  | none => none
  | some s => if s = "" then none else some s

/-- Truthiness of an optional JSON number rendered as its decimal
string (`if variant_data.get("weight"):`): absent or zero is falsy. -/
def truthyNum : Option String → Bool
  | none => false
  | some s =>
    match parseDec s with
    | some d => d.mant != 0
    | none => true

/-! ### Remote records (GraphQL nodes)

Typed models of the JSON nodes the sync service consumes.  `Option`
fields mirror `.get(...)` accesses (absent or null); non-`Option`
fields mirror `data["key"]` accesses whose presence the GraphQL query
shape guarantees.  Two-level accesses through an intermediate object
(`.get("seo", {}).get("title")`, `.get("shopMoney", {})`,
`.get("image", {}).get("id")`, edge/node wrappers) are collapsed into
one field, which is observationally equivalent. -/

structure ImageNode where
  id : String
  url : String
  altText : Option String
  width : Option Nat
  height : Option Nat
deriving DecidableEq, Repr

structure OptionNode where
  id : String
  name : String
  values : List String
  position : Nat
deriving DecidableEq, Repr

structure SelectedOption where
  name : String
  value : String
deriving DecidableEq, Repr

structure VariantNode where
  id : String
  title : String
  price : String
  compareAtPrice : Option String
  sku : Option String
  barcode : Option String
  inventoryQuantity : Option Int
  inventoryPolicy : Option String
  inventoryManagement : Option String
  weight : Option String
  weightUnit : Option String
  requiresShipping : Option Bool
  taxable : Option Bool
  selectedOptions : List SelectedOption
  imageId : Option String
  availableForSale : Option Bool
deriving DecidableEq, Repr

structure ProductNode where
  id : String
  title : String
  description : Option String
  handle : String
  vendor : Option String
  productType : Option String
  status : String
  tags : List String
  images : List ImageNode
  options : List OptionNode
  seoTitle : Option String
  seoDescription : Option String
  publishedAt : Option String
  createdAt : String
  updatedAt : String
  variants : List VariantNode
deriving DecidableEq, Repr

structure AddressNode where
  firstName : Option String
  lastName : Option String
  company : Option String
  address1 : Option String
  address2 : Option String
  city : Option String
  province : Option String
  country : Option String
  zip : Option String
  phone : Option String
deriving DecidableEq, Repr

structure CustomerNode where
  id : String
  email : Option String
  firstName : Option String
  lastName : Option String
  phone : Option String
  acceptsMarketing : Option Bool
  ordersCount : Option Int
  totalSpentAmount : Option String
  state : Option String
  verifiedEmail : Option Bool
  taxExempt : Option Bool
  tags : List String
  addresses : List AddressNode
  defaultAddress : Option String
  createdAt : String
  updatedAt : String
deriving DecidableEq, Repr

/-- The customer object embedded in an order (a narrower selection than
the customers-sync node). -/
structure OrderCustomerNode where
  id : String
  firstName : Option String
  lastName : Option String
  email : Option String
  phone : Option String
  ordersCount : Option Int
  totalSpentAmount : Option String
deriving DecidableEq, Repr

structure TrackingNode where
  number : Option String
  url : Option String
deriving DecidableEq, Repr

structure FulfillmentNode where
  status : Option String
  updatedAt : Option String
  trackingInfo : List TrackingNode
deriving DecidableEq, Repr

/-- `...Set.shopMoney` money bag, collapsed. -/
structure MoneyBag where
  amount : Option String
  currencyCode : Option String
deriving DecidableEq, Repr

structure LineItemNode where
  id : String
  productId : Option String
  variantId : Option String
  title : String
  name : String
  variantTitle : Option String
  sku : Option String
  vendor : Option String
  productType : Option String
  quantity : Int
  priceAmount : Option String
  discountAmount : Option String
  serviceName : Option String
  fulfillmentStatus : Option String
  customAttributes : List String
  taxLines : List String
deriving DecidableEq, Repr

structure OrderNode where
  id : String
  name : String
  orderNumber : Option String
  customer : Option OrderCustomerNode
  email : Option String
  phone : Option String
  totalPrice : Option MoneyBag
  subtotalPrice : Option MoneyBag
  totalTax : Option MoneyBag
  totalDiscounts : Option MoneyBag
  totalShipping : Option MoneyBag
  financialStatus : Option String
  fulfillmentStatus : Option String
  billingAddress : Option String
  shippingAddress : Option String
  fulfillments : List FulfillmentNode
  tags : List String
  note : Option String
  createdAt : String
  updatedAt : String
  processedAt : Option String
  closedAt : Option String
  cancelledAt : Option String
  cancelReason : Option String
  lineItems : List LineItemNode
deriving DecidableEq, Repr

structure ShopNode where
  id : Option String
  name : Option String
  email : Option String
  primaryDomainHost : Option String
  currencyCode : Option String
  ianaTimezone : Option String
  country : Option String
  phone : Option String
  address1 : Option String
  address2 : Option String
  city : Option String
  province : Option String
  zip : Option String
  planDisplayName : Option String
deriving DecidableEq, Repr

/-! ### Local rows (`app/models/shopify_data.py` tables)

Only the columns the sync engine reads or writes are modelled.
`created_at` carries the `server_default=func.now()` commit timestamp;
`updated_at` has **no insert default** (only `onupdate=func.now()`), so
it is `none` on a freshly inserted row — mirroring the NULL the
database stores — and is assigned only by the explicit
`updated_at = datetime.utcnow()` writes of the update branches. -/

structure ProductRow where
  id : Nat
  shop_domain : String
  shopify_product_id : String
  title : String
  description : Option String
  handle : String
  vendor : Option String
  product_type : Option String
  status : String
  tags : List String
  images : List ImageNode
  options : List OptionNode
  seo_title : Option String
  seo_description : Option String
  published_at : Option PyDateTime
  created_at_shopify : Option PyDateTime
  updated_at_shopify : Option PyDateTime
  last_synced : Nat
  created_at : Nat
  updated_at : Option Nat
deriving DecidableEq, Repr

structure VariantRow where
  id : Nat
  product_id : Nat
  shop_domain : String
  shopify_variant_id : String
  shopify_product_id : String
  title : String
  price : Dec
  compare_at_price : Option Dec
  sku : Option String
  barcode : Option String
  inventory_quantity : Int
  inventory_policy : Option String
  inventory_management : Option String
  weight : Option Dec
  weight_unit : Option String
  requires_shipping : Bool
  taxable : Bool
  option1 : Option String
  option2 : Option String
  option3 : Option String
  image_id : Option String
  available : Bool
  last_synced : Nat
  created_at : Nat
  updated_at : Option Nat
deriving DecidableEq, Repr

structure CustomerRow where
  id : Nat
  shop_domain : String
  shopify_customer_id : String
  email : Option String
  first_name : Option String
  last_name : Option String
  phone : Option String
  accepts_marketing : Bool
  orders_count : Int
  total_spent : Dec
  state : Option String
  verified_email : Bool
  tax_exempt : Bool
  tags : Option (List String)
  addresses : Option (List AddressNode)
  default_address : Option String
  created_at_shopify : Option PyDateTime
  updated_at_shopify : Option PyDateTime
  last_synced : Nat
  created_at : Nat
  updated_at : Option Nat
deriving DecidableEq, Repr

/-- The `{status, updated_at}` dict appended per fulfillment. -/
structure FulfillmentJson where
  status : Option String
  updated_at : Option String
deriving DecidableEq, Repr

structure OrderRow where
  id : Nat
  shop_domain : String
  customer_id : Option Nat
  shopify_order_id : String
  shopify_customer_id : String
  order_number : String
  name : String
  email : Option String
  phone : Option String
  total_price : Dec
  subtotal_price : Dec
  total_tax : Dec
  total_discounts : Dec
  total_shipping : Dec
  currency : String
  financial_status : String
  fulfillment_status : String
  billing_address : Option String
  shipping_address : Option String
  fulfillments : List FulfillmentJson
  tracking_numbers : List String
  tracking_urls : List String
  tags : List String
  note : Option String
  created_at_shopify : Option PyDateTime
  updated_at_shopify : Option PyDateTime
  processed_at : Option PyDateTime
  closed_at : Option PyDateTime
  cancelled_at : Option PyDateTime
  cancel_reason : Option String
  last_synced : Nat
  created_at : Nat
  updated_at : Option Nat
deriving DecidableEq, Repr

structure LineItemRow where
  id : Nat
  order_id : Nat
  product_id : Option Nat
  shop_domain : String
  shopify_line_item_id : String
  shopify_order_id : String
  shopify_product_id : String
  shopify_variant_id : String
  title : String
  name : String
  variant_title : Option String
  sku : Option String
  vendor : Option String
  product_type : Option String
  quantity : Int
  price : Dec
  total_discount : Dec
  fulfillment_service : Option String
  fulfillment_status : Option String
  properties : List String
  tax_lines : List String
  created_at : Nat
  updated_at : Option Nat
deriving DecidableEq, Repr

/-- The address JSON dict assembled by `sync_shop_info`. -/
structure ShopAddress where
  address1 : Option String
  address2 : Option String
  city : Option String
  province : Option String
  zip : Option String
  country : Option String
deriving DecidableEq, Repr

structure ShopRow where
  id : Nat
  shop_domain : String
  shopify_shop_id : String
  name : Option String
  email : Option String
  domain : Option String
  currency : Option String
  timezone : Option String
  country : Option String
  phone : Option String
  address : ShopAddress
  plan_name : Option String
  shop_data : ShopNode
  last_synced : Nat
  created_at : Nat
  updated_at : Option Nat
deriving DecidableEq, Repr

/-- `shopify_sync_logs` row; the counter columns carry the client-side
column default `0` from insertion. -/
structure SyncLogRow where
  id : Nat
  shop_domain : String
  sync_type : String
  status : String
  records_processed : Nat
  records_created : Nat
  records_updated : Nat
  records_failed : Nat
  error_message : Option String
  start_time : Nat
  end_time : Option Nat
  duration_seconds : Option Nat
  last_cursor : Option String
deriving DecidableEq, Repr

/-- `shopify_auth` rows as consulted by
`shopify_auth_service.get_auth_data` (filter on shop domain and
`is_active`). -/
structure AuthRow where
  shop_domain : String
  access_token : String
  is_active : Bool
deriving DecidableEq, Repr

/-- The relational store plus the modelled clock and the id sequence
shared by all tables. -/
structure Db where
  auth : List AuthRow
  shops : List ShopRow
  products : List ProductRow
  variants : List VariantRow
  customers : List CustomerRow
  orders : List OrderRow
  lineItems : List LineItemRow
  logs : List SyncLogRow
  nextId : Nat
  clock : Nat
deriving DecidableEq, Repr

/-- One `datetime.utcnow()` / `func.now()` read: returns the current
instant and advances the (strictly monotone) clock. -/
def tick (db : Db) : Nat × Db :=
  (db.clock, { db with clock := db.clock + 1 })

/-- `shopify_auth_service.get_auth_data(db, shop).access_token`:
first active auth row for the shop, if any. -/
def getAuth (db : Db) (shop : String) : Option String :=
  (db.auth.find? (fun a => a.shop_domain == shop && a.is_active)).map
    (fun a => a.access_token)

/-- Running in-memory `stats` dict of a sync operation. -/
structure Stats where
  processed : Nat
  created : Nat
  updated : Nat
  failed : Nat
deriving DecidableEq, Repr

/-- `pageInfo` of one fetched page. -/
structure PageInfo where
  hasNextPage : Bool
  endCursor : Option String
deriving DecidableEq, Repr

/-- One page returned by the API client; `edges` holds the unwrapped
`edge["node"]` records. -/
structure Page (α : Type) where
  edges : List α
  pageInfo : PageInfo
deriving DecidableEq, Repr

/-- The remote side: the successive responses the API client returns to
the walker, one list element per fetch call. -/
structure ApiEnv where
  shopInfo : Option ShopNode
  productPages : List (Page ProductNode)
  customerPages : List (Page CustomerNode)
  orderPages : List (Page OrderNode)
deriving DecidableEq, Repr

/-! ### Sync-log recorder -/

/-- `create_sync_log`: insert an `in_progress` row with `start_time =
utcnow()` and counter columns at their default `0`; returns the new
row's id. -/
def createSyncLog (db : Db) (shop sync_ty : String) : Db × Nat :=
  let t := tick db
  let row : SyncLogRow :=
    { id := db.nextId, shop_domain := shop, sync_type := sync_ty,
      status := "in_progress", records_processed := 0, records_created := 0,
      records_updated := 0, records_failed := 0, error_message := none,
      start_time := t.1, end_time := none, duration_seconds := none,
      last_cursor := none }
  ({ t.2 with logs := t.2.logs ++ [row], nextId := t.2.nextId + 1 }, db.nextId)

/-- The keyword arguments passed to `update_sync_log`; a `none` field
means the keyword was not supplied, so the column keeps its previous
value. -/
structure LogKw where
  records_processed : Option Nat := none
  records_created : Option Nat := none
  records_updated : Option Nat := none
  records_failed : Option Nat := none
  error_message : Option String := none
  last_cursor : Option (Option String) := none
deriving DecidableEq, Repr

/-- The `setattr` loop of `update_sync_log` over the supplied keyword
arguments. -/
def applyKw (r : SyncLogRow) (k : LogKw) : SyncLogRow :=
  { r with
    records_processed := k.records_processed.getD r.records_processed,
    records_created := k.records_created.getD r.records_created,
    records_updated := k.records_updated.getD r.records_updated,
    records_failed := k.records_failed.getD r.records_failed,
    error_message :=
      match k.error_message with
      | some m => some m
      | none => r.error_message,
    last_cursor := k.last_cursor.getD r.last_cursor }

/-- `update_sync_log`: set `status`, `end_time = utcnow()`, the derived
`duration_seconds`, then the supplied keyword columns, on the row with
the given id. -/
def updateLog (db : Db) (logId : Nat) (status : String) (k : LogKw) : Db :=
  let t := tick db
  { t.2 with
    logs := updateFirst (fun r => r.id == logId)
      (fun r => applyKw
        { r with
          status := status
          end_time := some t.1
          duration_seconds := some (t.1 - r.start_time) } k) t.2.logs }

/-! ### Product sync -/

/-- Python `str.lower()`: identical to `String.toLower` (which maps
`Char.toLower` over the characters) but written over the character
list, so that it evaluates inside the kernel. -/
def strLower (s : String) : String := String.mk (s.toList.map Char.toLower)

/-- `id.replace("gid://shopify/Product/", "")`. -/
def stripProductGid (s : String) : String :=
  pyReplace s "gid://shopify/Product/" ""

/-- `id.replace("gid://shopify/ProductVariant/", "")`. -/
def stripVariantGid (s : String) : String :=
  pyReplace s "gid://shopify/ProductVariant/" ""

/-- `id.replace("gid://shopify/Customer/", "")`. -/
def stripCustomerGid (s : String) : String :=
  pyReplace s "gid://shopify/Customer/" ""

/-- `id.replace("gid://shopify/Order/", "")`. -/
def stripOrderGid (s : String) : String :=
  pyReplace s "gid://shopify/Order/" ""

/-- `id.replace("gid://shopify/LineItem/", "")`. -/
def stripLineItemGid (s : String) : String :=
  pyReplace s "gid://shopify/LineItem/" ""

/-- `id.replace("gid://shopify/Shop/", "")`. -/
def stripShopGid (s : String) : String :=
  pyReplace s "gid://shopify/Shop/" ""

/-- Natural-key product lookup (`.filter(and_(shop_domain, shopify_product_id)).first()`). -/
def findProduct (ps : List ProductRow) (shop pid : String) : Option ProductRow :=
  ps.find? (fun r => r.shop_domain == shop && r.shopify_product_id == pid)

/-- The `selectedOptions` → `option1/2/3` mapping of
`_sync_product_variants` (substring tests on the lowered option name,
last write per slot wins). -/
def selOptions (sel : List SelectedOption) :
    Option String × Option String × Option String :=
  sel.foldl (fun acc o =>
    let nm := strLower o.name
    if strContains nm "size" || strContains nm "1" then (some o.value, acc.2.1, acc.2.2)
    else if strContains nm "color" || strContains nm "2" then (acc.1, some o.value, acc.2.2)
    else if strContains nm "3" then (acc.1, acc.2.1, some o.value)
    else acc) (none, none, none)

/-- The three `Decimal` parses of one variant (`price`, the truthiness-
guarded `compareAtPrice` and `weight`); `none` models the escaping
`InvalidOperation`. -/
def variantDecimals (v : VariantNode) : Option (Dec × Option Dec × Option Dec) :=
  match parseDec v.price with
  | none => none
  | some price =>
    match (if truthyStr v.compareAtPrice
        then (parseDec (v.compareAtPrice.getD "")).map some else some none) with
    | none => none
    | some cap =>
      match (if truthyNum v.weight
          then (parseDec (v.weight.getD "")).map some else some none) with
      | none => none
      | some w => some (price, cap, w)

/-- The variant-field overwrite block shared verbatim by the update and
create branches of `_sync_product_variants` (everything except the
natural key, ownership columns and `created_at`). -/
def variantFields (v : VariantNode) (price : Dec) (cap w : Option Dec)
    (r : VariantRow) (ls : Nat) (ua : Option Nat) : VariantRow :=
  { r with
    title := v.title, price := price, compare_at_price := cap,
    sku := v.sku, barcode := v.barcode,
    inventory_quantity := v.inventoryQuantity.getD 0,
    inventory_policy := v.inventoryPolicy,
    inventory_management := v.inventoryManagement,
    weight := w, weight_unit := v.weightUnit,
    requires_shipping := v.requiresShipping.getD true,
    taxable := v.taxable.getD true,
    option1 := (selOptions v.selectedOptions).1,
    option2 := (selOptions v.selectedOptions).2.1,
    option3 := (selOptions v.selectedOptions).2.2,
    image_id := v.imageId,
    available := v.availableForSale.getD true,
    last_synced := ls, updated_at := ua }

/-- A fresh variant row as constructed by the create branch: natural
key, ownership columns and server-side `created_at`; every other field
is set by `variantFields`. -/
def newVariantRow (product : ProductRow) (vid : String) (i created : Nat) :
    VariantRow :=
  { id := i, product_id := product.id, shop_domain := product.shop_domain,
    shopify_variant_id := vid, shopify_product_id := product.shopify_product_id,
    title := "", price := ⟨false, 0, 0⟩, compare_at_price := none, sku := none,
    barcode := none, inventory_quantity := 0, inventory_policy := none,
    inventory_management := none, weight := none, weight_unit := none,
    requires_shipping := true, taxable := true, option1 := none,
    option2 := none, option3 := none, image_id := none, available := true,
    last_synced := 0, created_at := created, updated_at := none }

/-- Loop body of `_sync_product_variants` over the session state
`(variant rows, id sequence, clock)`; `none` models a
`decimal.InvalidOperation` escaping the loop, in which case nothing is
committed. -/
def syncVariantsAux (product : ProductRow) :
    List VariantNode → List VariantRow → Nat → Nat →
    Option (List VariantRow × Nat × Nat)
  | [], vs, nid, clk => some (vs, nid, clk)
  | v :: rest, vs, nid, clk =>
    let vid := stripVariantGid v.id
    match variantDecimals v with
    | none => none
    | some (price, cap, w) =>
      let isTarget : VariantRow → Bool := fun r =>
        r.product_id == product.id && r.shopify_variant_id == vid
      match vs.find? isTarget with
      | some _ =>
        let vs' := updateFirst isTarget
          (fun r => variantFields v price cap w r clk (some (clk + 1))) vs
        syncVariantsAux product rest vs' nid (clk + 2)
      | none =>
        let row := variantFields v price cap w
          (newVariantRow product vid nid (clk + 1)) clk none
        syncVariantsAux product rest (vs ++ [row]) (nid + 1) (clk + 2)

/-- `_sync_product_variants`: run the loop, then `db.commit()`; on an
escaping exception the uncommitted variant changes are discarded. -/
def syncVariants (db : Db) (product : ProductRow) (vars : List VariantNode) :
    Db × Bool :=
  match syncVariantsAux product vars db.variants db.nextId db.clock with
  | some (vs, nid, clk) =>
    ({ db with variants := vs, nextId := nid, clock := clk }, true)
  | none => (db, false)

/-- The product-field overwrite block shared verbatim by the update and
create branches of `_sync_single_product` (everything except the
natural key, local id and `created_at`). -/
def productFields (n : ProductNode) (r : ProductRow) (ls : Nat)
    (ua : Option Nat) : ProductRow :=
  { r with
    title := n.title, description := n.description, handle := n.handle,
    vendor := n.vendor, product_type := n.productType,
    status := strLower n.status, tags := n.tags,
    images := n.images, options := n.options,
    seo_title := n.seoTitle, seo_description := n.seoDescription,
    published_at := parse_datetime n.publishedAt,
    created_at_shopify := parse_datetime (some n.createdAt),
    updated_at_shopify := parse_datetime (some n.updatedAt),
    last_synced := ls, updated_at := ua }

/-- A fresh product row as constructed by the create branch: natural
key, local id and server-side `created_at`; every other field is set by
`productFields`. -/
def newProductRow (shop pid : String) (i created : Nat) : ProductRow :=
  { id := i, shop_domain := shop, shopify_product_id := pid, title := "",
    description := none, handle := "", vendor := none, product_type := none,
    status := "", tags := [], images := [], options := [], seo_title := none,
    seo_description := none, published_at := none, created_at_shopify := none,
    updated_at_shopify := none, last_synced := 0, created_at := created,
    updated_at := none }

/-- `_sync_single_product`: upsert the product row by natural key
(committed), then sync its variants.  The returned flag is `false` when
an exception escapes (only possible in the variants phase), with the
product commit already persisted. -/
def syncSingleProduct (shop : String) (db : Db) (n : ProductNode) : Db × Bool :=
  let pid := stripProductGid n.id
  match findProduct db.products shop pid with
  | some p =>
    let t1 := tick db
    let t2 := tick t1.2
    let p' := productFields n p t1.1 (some t2.1)
    let db' :=
      { t2.2 with
        products := updateFirst
          (fun r => r.shop_domain == shop && r.shopify_product_id == pid)
          (fun _ => p') t2.2.products }
    syncVariants db' p' n.variants
  | none =>
    let t1 := tick db
    let t2 := tick t1.2
    let p' := productFields n (newProductRow shop pid t2.2.nextId t2.1) t1.1 none
    let db' :=
      { t2.2 with
        products := t2.2.products ++ [p']
        nextId := t2.2.nextId + 1 }
    syncVariants db' p' n.variants

/-- The create-vs-update classification of the page loop
(`existing and existing.created_at < existing.updated_at`): `none`
models the `TypeError` raised when `updated_at` is NULL (a freshly
inserted row), `some true` counts as updated, `some false` as
created. -/
def classifyProduct (ps : List ProductRow) (shop pid : String) : Option Bool :=
  match findProduct ps shop pid with
  | none => some false
  | some r =>
    match r.updated_at with
    | none => none
    | some u => some (decide (r.created_at < u))

/-- The per-edge `try` body of `sync_products`: upsert, count
`processed` on upsert success, then classify into
`created`/`updated`; any caught exception counts the record as
`failed`. -/
def productEdgeStep (shop : String) (x : Db × Stats) (n : ProductNode) :
    Db × Stats :=
  match syncSingleProduct shop x.1 n with
  | (db', false) => (db', { x.2 with failed := x.2.failed + 1 })
  | (db', true) =>
    let st := { x.2 with processed := x.2.processed + 1 }
    match classifyProduct db'.products shop (stripProductGid n.id) with
    | none => (db', { st with failed := st.failed + 1 })
    | some true => (db', { st with updated := st.updated + 1 })
    | some false => (db', { st with created := st.created + 1 })

/-- The `while has_next_page` pagination loop of `sync_products`,
consuming one API response per fetch call; returns the final state, the
in-memory stats and the number of fetch calls issued.  A falsy or
edge-less response breaks before the per-page checkpoint; otherwise the
page is processed and the checkpoint persists `records_processed` and
`last_cursor` (the cursor being `None` once `hasNextPage` is false). -/
def productsWalk (shop : String) (logId : Nat) :
    List (Page ProductNode) → Db → Stats → Db × Stats × Nat
  | [], db, stats => (db, stats, 0)
  | pg :: rest, db, stats =>
    if pg.edges.isEmpty then (db, stats, 1)
    else
      let x := pg.edges.foldl (productEdgeStep shop) (db, stats)
      let cursor := if pg.pageInfo.hasNextPage then pg.pageInfo.endCursor else none
      let db' := updateLog x.1 logId "in_progress"
        { records_processed := some x.2.processed, last_cursor := some cursor }
      if pg.pageInfo.hasNextPage then
        let r := productsWalk shop logId rest db' x.2
        (r.1, r.2.1, r.2.2 + 1)
      else (db', x.2, 1)

/-- `sync_products`: create the run row, then look up the token —
a missing token raises `"No auth data found"`, which the enclosing
`except` records on the already-created run row as an `error` run
before any page is fetched; otherwise walk the pages and finalize the
run as `success` with all four counters. -/
def syncProducts (env : ApiEnv) (shop : String) (db : Db) :
    Db × Stats × Nat :=
  let c := createSyncLog db shop "products"
  match getAuth c.1 shop with
  | none =>
    let db' := updateLog c.1 c.2 "error"
      { error_message := some "No auth data found",
        records_processed := some 0, records_failed := some 0 }
    (db', ⟨0, 0, 0, 0⟩, 0)
  | some _ =>
    let r := productsWalk shop c.2 env.productPages c.1 ⟨0, 0, 0, 0⟩
    let db' := updateLog r.1 c.2 "success"
      { records_processed := some r.2.1.processed,
        records_created := some r.2.1.created,
        records_updated := some r.2.1.updated,
        records_failed := some r.2.1.failed }
    (db', r.2.1, r.2.2)

/-! ### Customer sync -/

/-- Natural-key customer lookup. -/
def findCustomer (cs : List CustomerRow) (shop cid : String) : Option CustomerRow :=
  cs.find? (fun r => r.shop_domain == shop && r.shopify_customer_id == cid)

/-- `_sync_single_customer`: upsert one customer by natural key; the
flag is `false` when the `Decimal` parse of `totalSpentV2.amount`
raises, in which case nothing is committed. -/
def syncSingleCustomer (shop : String) (db : Db) (n : CustomerNode) : Db × Bool :=
  let cid := stripCustomerGid n.id
  match parseDec (n.totalSpentAmount.getD "0") with
  | none => (db, false)
  | some total_spent =>
    match findCustomer db.customers shop cid with
    | some c =>
      let t1 := tick db
      let t2 := tick t1.2
      let c' : CustomerRow :=
        { c with
          email := n.email, first_name := n.firstName,
          last_name := n.lastName, phone := n.phone,
          accepts_marketing := n.acceptsMarketing.getD false,
          orders_count := n.ordersCount.getD 0,
          total_spent := total_spent,
          state := some (strLower (n.state.getD "")),
          verified_email := n.verifiedEmail.getD false,
          tax_exempt := n.taxExempt.getD false,
          tags := some n.tags, addresses := some n.addresses,
          default_address := n.defaultAddress,
          created_at_shopify := parse_datetime (some n.createdAt),
          updated_at_shopify := parse_datetime (some n.updatedAt),
          last_synced := t1.1, updated_at := some t2.1 }
      ({ t2.2 with
         customers := updateFirst
           (fun r => r.shop_domain == shop && r.shopify_customer_id == cid)
           (fun _ => c') t2.2.customers }, true)
    | none =>
      let t1 := tick db
      let t2 := tick t1.2
      let c' : CustomerRow :=
        { id := t2.2.nextId, shop_domain := shop, shopify_customer_id := cid,
          email := n.email, first_name := n.firstName,
          last_name := n.lastName, phone := n.phone,
          accepts_marketing := n.acceptsMarketing.getD false,
          orders_count := n.ordersCount.getD 0,
          total_spent := total_spent,
          state := some (strLower (n.state.getD "")),
          verified_email := n.verifiedEmail.getD false,
          tax_exempt := n.taxExempt.getD false,
          tags := some n.tags, addresses := some n.addresses,
          default_address := n.defaultAddress,
          created_at_shopify := parse_datetime (some n.createdAt),
          updated_at_shopify := parse_datetime (some n.updatedAt),
          last_synced := t1.1, created_at := t2.1, updated_at := none }
      ({ t2.2 with
         customers := t2.2.customers ++ [c']
         nextId := t2.2.nextId + 1 }, true)

/-- Create-vs-update classification of the customers page loop
(same NULL-`updated_at` caveat as `classifyProduct`). -/
def classifyCustomer (cs : List CustomerRow) (shop cid : String) : Option Bool :=
  match findCustomer cs shop cid with
  | none => some false
  | some r =>
    match r.updated_at with
    | none => none
    | some u => some (decide (r.created_at < u))

/-- Per-edge `try` body of `sync_customers`. -/
def customerEdgeStep (shop : String) (x : Db × Stats) (n : CustomerNode) :
    Db × Stats :=
  match syncSingleCustomer shop x.1 n with
  | (db', false) => (db', { x.2 with failed := x.2.failed + 1 })
  | (db', true) =>
    let st := { x.2 with processed := x.2.processed + 1 }
    match classifyCustomer db'.customers shop (stripCustomerGid n.id) with
    | none => (db', { st with failed := st.failed + 1 })
    | some true => (db', { st with updated := st.updated + 1 })
    | some false => (db', { st with created := st.created + 1 })

/-- The `while has_next_page` loop of `sync_customers`.  Unlike the
products and orders loops it performs **no** per-page log update: the
run row is only touched by the final `update_sync_log`. -/
def customersWalk (shop : String) :
    List (Page CustomerNode) → Db → Stats → Db × Stats × Nat
  | [], db, stats => (db, stats, 0)
  | pg :: rest, db, stats =>
    if pg.edges.isEmpty then (db, stats, 1)
    else
      let x := pg.edges.foldl (customerEdgeStep shop) (db, stats)
      if pg.pageInfo.hasNextPage then
        let r := customersWalk shop rest x.1 x.2
        (r.1, r.2.1, r.2.2 + 1)
      else (x.1, x.2, 1)

/-- `sync_customers`: same run-row lifecycle as `sync_products`. -/
def syncCustomers (env : ApiEnv) (shop : String) (db : Db) :
    Db × Stats × Nat :=
  let c := createSyncLog db shop "customers"
  match getAuth c.1 shop with
  | none =>
    let db' := updateLog c.1 c.2 "error"
      { error_message := some "No auth data found",
        records_processed := some 0, records_failed := some 0 }
    (db', ⟨0, 0, 0, 0⟩, 0)
  | some _ =>
    let r := customersWalk shop env.customerPages c.1 ⟨0, 0, 0, 0⟩
    let db' := updateLog r.1 c.2 "success"
      { records_processed := some r.2.1.processed,
        records_created := some r.2.1.created,
        records_updated := some r.2.1.updated,
        records_failed := some r.2.1.failed }
    (db', r.2.1, r.2.2)

/-! ### Order sync -/

/-- `order_data.get(key, {}).get("shopMoney", {}).get("amount", "0")`. -/
def bagAmount (m : Option MoneyBag) : String :=
  (m.bind MoneyBag.amount).getD "0"

/-- `....get("shopMoney", {}).get("currencyCode", "USD")`. -/
def bagCurrency (m : Option MoneyBag) : String :=
  (m.bind MoneyBag.currencyCode).getD "USD"

/-- `_sync_order_customer`: upsert the order-embedded customer and
return its local id; outer `none` models an escaping `Decimal`
exception (nothing committed), `some none` is the early `return None`
for a falsy customer payload. -/
def syncOrderCustomer (shop : String) (db : Db) (c : OrderCustomerNode) :
    Db × Option (Option Nat) :=
  if c.id = "" then (db, some none)
  else
    let cid := stripCustomerGid c.id
    match findCustomer db.customers shop cid with
    | some cust =>
      let spent? : Option (Option Dec) :=
        if truthyStr c.totalSpentAmount then
          match parseDec (c.totalSpentAmount.getD "") with
          | none => none
          | some ts => some (some ts)
        else some none
      match spent? with
      | none => (db, none)
      | some ts? =>
        let t1 := tick db
        let t2 := tick t1.2
        let cust' : CustomerRow :=
          { cust with
            first_name := c.firstName, last_name := c.lastName,
            email := c.email, phone := c.phone,
            orders_count := c.ordersCount.getD 0,
            total_spent := ts?.getD cust.total_spent,
            last_synced := t1.1, updated_at := some t2.1 }
        ({ t2.2 with
           customers := updateFirst
             (fun r => r.shop_domain == shop && r.shopify_customer_id == cid)
             (fun _ => cust') t2.2.customers }, some (some cust.id))
    | none =>
      match parseDec (c.totalSpentAmount.getD "0") with
      | none => (db, none)
      | some ts =>
        let t1 := tick db
        let t2 := tick t1.2
        let cust' : CustomerRow :=
          { id := t2.2.nextId, shop_domain := shop,
            shopify_customer_id := cid,
            email := c.email, first_name := c.firstName,
            last_name := c.lastName, phone := c.phone,
            accepts_marketing := false,
            orders_count := c.ordersCount.getD 0,
            total_spent := ts, state := none, verified_email := false,
            tax_exempt := false, tags := none, addresses := none,
            default_address := none, created_at_shopify := none,
            updated_at_shopify := none,
            last_synced := t1.1, created_at := t2.1, updated_at := none }
        ({ t2.2 with
           customers := t2.2.customers ++ [cust']
           nextId := t2.2.nextId + 1 }, some (some cust'.id))

/-- Tracking numbers collected across fulfillments (truthy only). -/
def trackingNumbers (n : OrderNode) : List String :=
  n.fulfillments.foldl
    (fun acc f => acc ++ f.trackingInfo.filterMap (fun t => truthyOptStr t.number)) []

/-- Tracking URLs collected across fulfillments (truthy only). -/
def trackingUrls (n : OrderNode) : List String :=
  n.fulfillments.foldl
    (fun acc f => acc ++ f.trackingInfo.filterMap (fun t => truthyOptStr t.url)) []

/-- One iteration of the `_sync_order_line_items` insert loop: resolve
the referenced product to a local id (absence yields a NULL
`product_id`, not an error) and build the new row; `none` models a
`Decimal` parse exception. -/
def buildLineItem (products : List ProductRow) (order : OrderRow)
    (nid clk : Nat) (it : LineItemNode) : Option LineItemRow :=
  let product_id : Option Nat :=
    if truthyStr it.productId then
      match findProduct products order.shop_domain
          (stripProductGid (it.productId.getD "")) with
      | some p => some p.id
      | none => none
    else none
  match parseDec (it.priceAmount.getD "0"),
      parseDec (it.discountAmount.getD "0") with
  | some price, some disc =>
    some
      { id := nid, order_id := order.id, product_id := product_id,
        shop_domain := order.shop_domain,
        shopify_line_item_id := stripLineItemGid it.id,
        shopify_order_id := order.shopify_order_id,
        shopify_product_id := stripProductGid (it.productId.getD ""),
        shopify_variant_id := stripVariantGid (it.variantId.getD ""),
        title := it.title, name := it.name,
        variant_title := it.variantTitle, sku := it.sku,
        vendor := it.vendor, product_type := it.productType,
        quantity := it.quantity, price := price, total_discount := disc,
        fulfillment_service := it.serviceName,
        fulfillment_status := it.fulfillmentStatus,
        properties := it.customAttributes, tax_lines := it.taxLines,
        created_at := clk, updated_at := none }
  | _, _ => none

/-- The insert loop of `_sync_order_line_items` over `(new rows, id
sequence, clock)`. -/
def buildLineItemsAux (products : List ProductRow) (order : OrderRow) :
    List LineItemNode → List LineItemRow → Nat → Nat →
    Option (List LineItemRow × Nat × Nat)
  | [], acc, nid, clk => some (acc, nid, clk)
  | it :: rest, acc, nid, clk =>
    match buildLineItem products order nid clk it with
    | none => none
    | some row => buildLineItemsAux products order rest (acc ++ [row]) (nid + 1) (clk + 1)

/-- `_sync_order_line_items`: delete every line item of the order
**and commit the deletion**, then insert the current remote set in one
commit; an insert-phase exception therefore leaves the deletion
persisted and no rows inserted. -/
def syncOrderLineItems (db : Db) (order : OrderRow)
    (items : List LineItemNode) : Db × Bool :=
  let db1 := { db with lineItems := db.lineItems.filter (fun li => !(li.order_id == order.id)) }
  match buildLineItemsAux db1.products order items [] db1.nextId db1.clock with
  | some (rows, nid, clk) =>
    ({ db1 with lineItems := db1.lineItems ++ rows, nextId := nid, clock := clk }, true)
  | none => (db1, false)

/-- The money-parse → order-upsert → line-item phase of
`_sync_single_order`, entered after the embedded customer has been
resolved to `customer_id`; `false` = an exception escaped at the stage
reached so far. -/
def syncOrderBody (shop : String) (db1 : Db) (customer_id : Option Nat)
    (n : OrderNode) : Db × Bool :=
  let oid := stripOrderGid n.id
  match parseDec (bagAmount n.totalPrice), parseDec (bagAmount n.subtotalPrice),
      parseDec (bagAmount n.totalTax), parseDec (bagAmount n.totalDiscounts),
      parseDec (bagAmount n.totalShipping) with
  | some tp, some sp, some tt, some td, some tsh =>
      let fulf : List FulfillmentJson :=
        n.fulfillments.map (fun f => ⟨f.status, f.updatedAt⟩)
      let shopifyCust := stripCustomerGid ((n.customer.map (fun c => c.id)).getD "")
      match db1.orders.find? (fun r => r.shop_domain == shop && r.shopify_order_id == oid) with
      | some o =>
        let t1 := tick db1
        let t2 := tick t1.2
        let o' : OrderRow :=
          { o with
            customer_id := customer_id, shopify_customer_id := shopifyCust,
            email := n.email, phone := n.phone,
            total_price := tp, subtotal_price := sp, total_tax := tt,
            total_discounts := td, total_shipping := tsh,
            currency := bagCurrency n.totalPrice,
            financial_status := strLower (n.financialStatus.getD ""),
            fulfillment_status := strLower (n.fulfillmentStatus.getD ""),
            billing_address := n.billingAddress,
            shipping_address := n.shippingAddress,
            fulfillments := fulf,
            tracking_numbers := trackingNumbers n,
            tracking_urls := trackingUrls n,
            tags := n.tags, note := n.note,
            created_at_shopify := parse_datetime (some n.createdAt),
            updated_at_shopify := parse_datetime (some n.updatedAt),
            processed_at := parse_datetime n.processedAt,
            closed_at := parse_datetime n.closedAt,
            cancelled_at := parse_datetime n.cancelledAt,
            cancel_reason := n.cancelReason,
            last_synced := t1.1, updated_at := some t2.1 }
        let db2 :=
          { t2.2 with
            orders := updateFirst
              (fun r => r.shop_domain == shop && r.shopify_order_id == oid)
              (fun _ => o') t2.2.orders }
        syncOrderLineItems db2 o' n.lineItems
      | none =>
        let t1 := tick db1
        let t2 := tick t1.2
        let o' : OrderRow :=
          { id := t2.2.nextId, shop_domain := shop,
            customer_id := customer_id, shopify_order_id := oid,
            shopify_customer_id := shopifyCust,
            order_number := n.orderNumber.getD "", name := n.name,
            email := n.email, phone := n.phone,
            total_price := tp, subtotal_price := sp, total_tax := tt,
            total_discounts := td, total_shipping := tsh,
            currency := bagCurrency n.totalPrice,
            financial_status := strLower (n.financialStatus.getD ""),
            fulfillment_status := strLower (n.fulfillmentStatus.getD ""),
            billing_address := n.billingAddress,
            shipping_address := n.shippingAddress,
            fulfillments := fulf,
            tracking_numbers := trackingNumbers n,
            tracking_urls := trackingUrls n,
            tags := n.tags, note := n.note,
            created_at_shopify := parse_datetime (some n.createdAt),
            updated_at_shopify := parse_datetime (some n.updatedAt),
            processed_at := parse_datetime n.processedAt,
            closed_at := parse_datetime n.closedAt,
            cancelled_at := parse_datetime n.cancelledAt,
            cancel_reason := n.cancelReason,
            last_synced := t1.1, created_at := t2.1, updated_at := none }
        let db2 :=
          { t2.2 with
            orders := t2.2.orders ++ [o']
            nextId := t2.2.nextId + 1 }
        syncOrderLineItems db2 o' n.lineItems
  | _, _, _, _, _ => (db1, false)

/-- `_sync_single_order`: sync the embedded customer (committed
separately), then run the money-parse → upsert → line-item body. -/
def syncSingleOrder (shop : String) (db : Db) (n : OrderNode) : Db × Bool :=
  let custStep : Db × Option (Option Nat) :=
    match n.customer with
    | some c => syncOrderCustomer shop db c
    | none => (db, some none)
  match custStep with
  | (db1, none) => (db1, false)
  | (db1, some customer_id) => syncOrderBody shop db1 customer_id n

/-- Create-vs-update classification of the orders page loop (same
NULL-`updated_at` caveat as `classifyProduct`). -/
def classifyOrder (os : List OrderRow) (shop oid : String) : Option Bool :=
  match os.find? (fun r => r.shop_domain == shop && r.shopify_order_id == oid) with
  | none => some false
  | some r =>
    match r.updated_at with
    | none => none
    | some u => some (decide (r.created_at < u))

/-- Per-edge `try` body of `sync_orders`. -/
def orderEdgeStep (shop : String) (x : Db × Stats) (n : OrderNode) :
    Db × Stats :=
  match syncSingleOrder shop x.1 n with
  | (db', false) => (db', { x.2 with failed := x.2.failed + 1 })
  | (db', true) =>
    let st := { x.2 with processed := x.2.processed + 1 }
    match classifyOrder db'.orders shop (stripOrderGid n.id) with
    | none => (db', { st with failed := st.failed + 1 })
    | some true => (db', { st with updated := st.updated + 1 })
    | some false => (db', { st with created := st.created + 1 })

/-- The `while has_next_page` loop of `sync_orders`, with the same
per-page `records_processed`/`last_cursor` checkpoint as the products
loop. -/
def ordersWalk (shop : String) (logId : Nat) :
    List (Page OrderNode) → Db → Stats → Db × Stats × Nat
  | [], db, stats => (db, stats, 0)
  | pg :: rest, db, stats =>
    if pg.edges.isEmpty then (db, stats, 1)
    else
      let x := pg.edges.foldl (orderEdgeStep shop) (db, stats)
      let cursor := if pg.pageInfo.hasNextPage then pg.pageInfo.endCursor else none
      let db' := updateLog x.1 logId "in_progress"
        { records_processed := some x.2.processed, last_cursor := some cursor }
      if pg.pageInfo.hasNextPage then
        let r := ordersWalk shop logId rest db' x.2
        (r.1, r.2.1, r.2.2 + 1)
      else (db', x.2, 1)

/-- `sync_orders` (the `days_back` window only shapes the remote query
filter, i.e. which pages the environment serves): same run-row
lifecycle as `sync_products`. -/
def syncOrders (env : ApiEnv) (shop : String) (db : Db) :
    Db × Stats × Nat :=
  let c := createSyncLog db shop "orders"
  match getAuth c.1 shop with
  | none =>
    let db' := updateLog c.1 c.2 "error"
      { error_message := some "No auth data found",
        records_processed := some 0, records_failed := some 0 }
    (db', ⟨0, 0, 0, 0⟩, 0)
  | some _ =>
    let r := ordersWalk shop c.2 env.orderPages c.1 ⟨0, 0, 0, 0⟩
    let db' := updateLog r.1 c.2 "success"
      { records_processed := some r.2.1.processed,
        records_created := some r.2.1.created,
        records_updated := some r.2.1.updated,
        records_failed := some r.2.1.failed }
    (db', r.2.1, r.2.2)

/-! ### Shop info and full sync -/

/-- `sync_shop_info`: the whole body sits in a `try/except` returning
`False` on any failure (missing auth data, missing shop payload), so it
never raises; on success the shop row is upserted by domain. -/
def syncShopInfo (env : ApiEnv) (shop : String) (db : Db) : Db × Bool :=
  match getAuth db shop with
  | none => (db, false)
  | some _ =>
    match env.shopInfo with
    | none => (db, false)
    | some sdata =>
      let addr : ShopAddress :=
        ⟨sdata.address1, sdata.address2, sdata.city, sdata.province,
          sdata.zip, sdata.country⟩
      match db.shops.find? (fun r => r.shop_domain == shop) with
      | some sh =>
        let t1 := tick db
        let t2 := tick t1.2
        let sh' : ShopRow :=
          { sh with
            name := sdata.name, email := sdata.email,
            domain := sdata.primaryDomainHost,
            currency := sdata.currencyCode, timezone := sdata.ianaTimezone,
            country := sdata.country, phone := sdata.phone,
            address := addr, plan_name := sdata.planDisplayName,
            shop_data := sdata, last_synced := t1.1,
            updated_at := some t2.1 }
        ({ t2.2 with
           shops := updateFirst (fun r => r.shop_domain == shop)
             (fun _ => sh') t2.2.shops }, true)
      | none =>
        let t1 := tick db
        let t2 := tick t1.2
        let sh' : ShopRow :=
          { id := t2.2.nextId, shop_domain := shop,
            shopify_shop_id := stripShopGid (sdata.id.getD ""),
            name := sdata.name, email := sdata.email,
            domain := sdata.primaryDomainHost,
            currency := sdata.currencyCode, timezone := sdata.ianaTimezone,
            country := sdata.country, phone := sdata.phone,
            address := addr, plan_name := sdata.planDisplayName,
            shop_data := sdata, last_synced := t1.1,
            created_at := t2.1, updated_at := none }
        ({ t2.2 with
           shops := t2.2.shops ++ [sh']
           nextId := t2.2.nextId + 1 }, true)

/-- `full_sync`: runs the shop-profile phase and **discards** its
boolean outcome, then unconditionally runs the products, customers and
orders syncs in that order (each creating its own run row); none of the
phases raises, so all four are always attempted. -/
def fullSync (env : ApiEnv) (shop : String) (db : Db) :
    Db × Stats × Stats × Stats :=
  let s0 := syncShopInfo env shop db
  let rp := syncProducts env shop s0.1
  let rc := syncCustomers env shop rp.1
  let ro := syncOrders env shop rc.1
  (ro.1, rp.2.1, rc.2.1, ro.2.1)

/-! ## Concrete fixtures used by the evaluated theorems -/

/-- A minimal variant-free product node (ids are used without the
`gid://` prefix, on which the strip is a no-op, as permitted by
`str.replace`). -/
def pnode (i : String) : ProductNode :=
  { id := i, title := "Tee", description := none, handle := "tee",
    vendor := none, productType := none, status := "ACTIVE", tags := [],
    images := [], options := [], seoTitle := none, seoDescription := none,
    publishedAt := none, createdAt := "2024-01-01T00:00:00Z",
    updatedAt := "2024-01-01T00:00:00Z", variants := [] }

/-- Empty store with one active token for `s1.myshopify.com`. -/
def dbAuth : Db :=
  { auth := [⟨"s1.myshopify.com", "tok", true⟩], shops := [], products := [],
    variants := [], customers := [], orders := [], lineItems := [], logs := [],
    nextId := 1, clock := 0 }

/-- Empty store with no token at all. -/
def dbNoAuth : Db :=
  { auth := [], shops := [], products := [], variants := [], customers := [],
    orders := [], lineItems := [], logs := [], nextId := 0, clock := 0 }

/-- Environment serving no data at all. -/
def envEmpty : ApiEnv :=
  { shopInfo := none, productPages := [], customerPages := [], orderPages := [] }

/-- One-page product feed: one product, `hasNextPage=false`, terminal
`endCursor="C1"`. -/
def envOnePage : ApiEnv :=
  { shopInfo := none,
    productPages := [⟨[pnode "1"], ⟨false, some "C1"⟩⟩],
    customerPages := [], orderPages := [] }

/-- The §8 scenario feed: page 1 holds two products with
`hasNextPage=true` and cursor `"C1"`, page 2 holds one product with
`hasNextPage=false`. -/
def envTwoPages : ApiEnv :=
  { shopInfo := none,
    productPages := [⟨[pnode "1", pnode "2"], ⟨true, some "C1"⟩⟩,
      ⟨[pnode "3"], ⟨false, none⟩⟩],
    customerPages := [], orderPages := [] }

/-! ## C3 — the two-page scenario -/

/-- C3: the spec scenario expects `records_processed = 3`,
`records_created = 3` and final status `success` for the two-page feed
on a fresh store.  The code disagrees: every product row is inserted,
but the create-vs-update classification then evaluates
`existing.created_at < existing.updated_at` on the freshly inserted row
whose `updated_at` column is NULL (it has only an `onupdate` default),
raising `TypeError`, which the per-record `except` counts as a failure.
The run therefore ends with `processed = 3`, `created = 0`,
`failed = 3` — and status `success`.  This theorem evaluates the model
at the failing input. -/
theorem c3_code_bug_eval :
    (syncProducts envTwoPages "s1.myshopify.com" dbAuth).2.1 = ⟨3, 0, 0, 3⟩ ∧
    ((syncProducts envTwoPages "s1.myshopify.com" dbAuth).1.logs.map
      (fun l => (l.status, l.records_processed, l.records_created,
        l.records_updated, l.records_failed))) = [("success", 3, 0, 0, 3)] ∧
    ((syncProducts envTwoPages "s1.myshopify.com" dbAuth).1.products.map
      (fun r => (r.shopify_product_id, r.updated_at))) =
      [("1", none), ("2", none), ("3", none)] := by
  decide

/-! ## C7 — monetary precision -/

/-- C7: money amounts are parsed by `Decimal(str(amount))`, modelled by
`parseDec`, which maps a fixed-point literal directly to an exact
sign/mantissa/scale triple with no binary floating-point intermediate.
Parsing `"12.50"` and re-serializing yields exactly `"12.50"`; the
parsed values of `"0.10"` and `"0.20"` sum (by exact decimal addition)
to exactly the parsed value of `"0.30"`; and decimal addition is exact
in general: the value of `decAdd a b` at the aligned scale is the sum
of the aligned values, for all decimals. -/
theorem c7_exact_decimal :
    (parseDec "12.50").map decRepr = some "12.50" ∧
    (match parseDec "0.10", parseDec "0.20" with
      | some a, some b => some (decAdd a b)
      | _, _ => none) = parseDec "0.30" ∧
    ∀ a b : Dec,
      decToInt (decAdd a b) (max a.scale b.scale) =
        decToInt a (max a.scale b.scale) + decToInt b (max a.scale b.scale) := by
  refine ⟨by decide, by decide, ?_⟩
  intro a b
  have h : ∀ (s : Int) (sb : Bool),
      (if (if s < 0 then true else if 0 < s then false else sb) = true
        then -(s.natAbs : Int) else (s.natAbs : Int)) = s := by
    intro s sb
    rcases lt_trichotomy s 0 with hs | hs | hs
    · rw [if_pos hs, if_pos rfl, Int.ofNat_natAbs_of_nonpos hs.le, neg_neg]
    · subst hs
      cases sb <;> decide
    · rw [if_neg (by omega : ¬ s < 0), if_pos hs,
        if_neg (by simp : ¬ (false = true))]
      exact Int.natAbs_of_nonneg hs.le
  simp only [decAdd, decToInt, Nat.sub_self, pow_zero, mul_one]
  exact h _ _

/-! ## C8 — timestamp parsing (counterexample part) -/

/-- A parsed timestamp is in UTC-normalized form when it carries no
offset (naive UTC) or an explicit zero offset. -/
def utcNormalized (d : PyDateTime) : Prop :=
  d.tzOffset = none ∨ d.tzOffset = some 0

/-- C8 counterexample: the parser accepts the explicit-offset form but
does **not** normalize it to UTC — `"2024-01-02T03:04:05+05:00"` parses
to wall-clock `03:04:05` still carrying offset `+300` minutes (the
source never converts; a normalized result would be
`2024-01-01T22:04:05` at offset `0`). -/
theorem c8_counterexample :
    parse_datetime (some "2024-01-02T03:04:05+05:00") =
      some ⟨2024, 1, 2, 3, 4, 5, some 300⟩ ∧
    ¬ utcNormalized ⟨2024, 1, 2, 3, 4, 5, some 300⟩ := by
  constructor
  · decide
  · intro h
    rcases h with h | h <;> simp [PyDateTime.tzOffset] at h

/-! ## C1 — missing token (counterexample part) -/

/-- C1 counterexample: with no token stored, `sync_products` still
creates a sync-run record — the run store is **not** unchanged; the
claim's "no sync-run record is created" fails.  The run row is created
first, then the token lookup fails and the `except` branch finalizes
that same row as an `error` run. -/
theorem c1_counterexample :
    dbNoAuth.logs = [] ∧
    ((syncProducts envEmpty "s1.myshopify.com" dbNoAuth).1.logs.map
      (fun l => (l.sync_type, l.status, l.error_message))) =
      [("products", "error", some "No auth data found")] := by
  decide

/-! ## C2 — pagination termination (counterexample part) -/

/-- C2 counterexample: for the single-page feed whose last (only) page
reports `hasNextPage=false` with `endCursor="C1"`, the walker issues
exactly one fetch, but the final `last_cursor` recorded on the run is
`None`, **not** the last page's `endCursor` — the loop nulls the cursor
once `hasNextPage` is false, and the final update never writes it. -/
theorem c2_counterexample :
    (envOnePage.productPages.map (fun p => p.pageInfo.endCursor)) = [some "C1"] ∧
    (syncProducts envOnePage "s1.myshopify.com" dbAuth).2.2 = 1 ∧
    ((syncProducts envOnePage "s1.myshopify.com" dbAuth).1.logs.map
      (fun l => l.last_cursor)) = [none] := by
  decide

/-! ## C4 — idempotent re-run (counterexample part) -/

/-- C4 counterexample: re-running `sync_products` against the unchanged
one-page feed yields `records_created = 0`, but it does **not** leave
every previously stored field value unchanged: the second run rewrites
`last_synced` and sets `updated_at` on the product row (which was NULL
after the first run), so the stored rows differ. -/
theorem c4_counterexample :
    (syncProducts envOnePage "s1.myshopify.com"
      (syncProducts envOnePage "s1.myshopify.com" dbAuth).1).2.1.created = 0 ∧
    ((syncProducts envOnePage "s1.myshopify.com" dbAuth).1.products.map
      (fun r => r.updated_at)) = [none] ∧
    ((syncProducts envOnePage "s1.myshopify.com"
      (syncProducts envOnePage "s1.myshopify.com" dbAuth).1).1.products.map
      (fun r => r.updated_at)) ≠ [none] := by
  decide

/-! ## C9 — per-page checkpoint (counterexample part) -/

/-- A sync-run row as just created by `create_sync_log` (counters at
their column default `0`). -/
def logRow1 : SyncLogRow :=
  { id := 1, shop_domain := "s1.myshopify.com", sync_type := "products",
    status := "in_progress", records_processed := 0, records_created := 0,
    records_updated := 0, records_failed := 0, error_message := none,
    start_time := 0, end_time := none, duration_seconds := none,
    last_cursor := none }

/-- Store holding the fresh run row of `logRow1`. -/
def dbWithLog : Db :=
  { dbAuth with logs := [logRow1], nextId := 2 }

/-- C9 counterexample: after a fetched page the run record is updated,
but **not** with all four counters: processing a page of two fresh
products leaves the in-memory `failed` counter at `2` (the
classification `TypeError`, see C3), while the per-page checkpoint
persists only `records_processed` and `last_cursor` — the persisted
`records_failed`/`records_created`/`records_updated` stay `0`. -/
theorem c9_counterexample :
    (productsWalk "s1.myshopify.com" 1
      [⟨[pnode "1", pnode "2"], ⟨false, some "A"⟩⟩] dbWithLog ⟨0, 0, 0, 0⟩).2.1.failed = 2 ∧
    ((productsWalk "s1.myshopify.com" 1
      [⟨[pnode "1", pnode "2"], ⟨false, some "A"⟩⟩] dbWithLog ⟨0, 0, 0, 0⟩).1.logs.map
      (fun l => (l.status, l.records_processed, l.records_created,
        l.records_updated, l.records_failed))) = [("in_progress", 2, 0, 0, 0)] := by
  decide

/-! ## Generic list lemmas -/

theorem updateFirst_append_of_none (p : α → Bool) (f : α → α) (l1 l2 : List α)
    (h : ∀ x ∈ l1, p x = false) :
    updateFirst p f (l1 ++ l2) = l1 ++ updateFirst p f l2 := by
  induction l1 with
  | nil => rfl
  | cons a l ih =>
    have ha : p a = false := h a (List.mem_cons_self a l)
    simp [updateFirst, ha, ih (fun x hx => h x (List.mem_cons_of_mem a hx))]

/-- `get_auth_data` reads only the auth table, so updating the log/id/
clock components leaves it unchanged. -/
theorem getAuth_set_logs (db : Db) (shop : String) (L : List SyncLogRow)
    (N C : Nat) :
    getAuth { db with logs := L, nextId := N, clock := C } shop = getAuth db shop := rfl

/-! ## C1 — missing token (amended part) -/

/-- The run row left behind by a sync operation whose token lookup
failed: created `in_progress`, immediately finalized as `error` with
the raised message and zero counters. -/
def errRunRow (shop ty : String) (i t : Nat) : SyncLogRow :=
  { id := i, shop_domain := shop, sync_type := ty, status := "error",
    records_processed := 0, records_created := 0, records_updated := 0,
    records_failed := 0, error_message := some "No auth data found",
    start_time := t, end_time := some (t + 1),
    duration_seconds := some 1, last_cursor := none }

/-- `sync_products` with no stored token: zero fetches, zero stats,
every entity table untouched, and exactly one new run row, finalized as
`error`. -/
theorem syncProducts_noAuth (env : ApiEnv) (shop : String) (db : Db)
    (hauth : getAuth db shop = none)
    (hwf : ∀ l ∈ db.logs, l.id < db.nextId) :
    syncProducts env shop db =
      ({ db with
          logs := db.logs ++ [errRunRow shop "products" db.nextId db.clock]
          nextId := db.nextId + 1
          clock := db.clock + 2 }, ⟨0, 0, 0, 0⟩, 0) := by
  have hmatch : ∀ x ∈ db.logs, (fun (r : SyncLogRow) => r.id == db.nextId) x = false := by
    intro x hx
    have := hwf x hx
    simp only [beq_eq_false_iff_ne, ne_eq]
    omega
  simp [syncProducts, createSyncLog, updateLog, tick, getAuth_set_logs, hauth,
    updateFirst_append_of_none _ _ _ _ hmatch, updateFirst, applyKw, errRunRow]

/-- `sync_customers` with no stored token (same shape). -/
theorem syncCustomers_noAuth (env : ApiEnv) (shop : String) (db : Db)
    (hauth : getAuth db shop = none)
    (hwf : ∀ l ∈ db.logs, l.id < db.nextId) :
    syncCustomers env shop db =
      ({ db with
          logs := db.logs ++ [errRunRow shop "customers" db.nextId db.clock]
          nextId := db.nextId + 1
          clock := db.clock + 2 }, ⟨0, 0, 0, 0⟩, 0) := by
  have hmatch : ∀ x ∈ db.logs, (fun (r : SyncLogRow) => r.id == db.nextId) x = false := by
    intro x hx
    have := hwf x hx
    simp only [beq_eq_false_iff_ne, ne_eq]
    omega
  simp [syncCustomers, createSyncLog, updateLog, tick, getAuth_set_logs, hauth,
    updateFirst_append_of_none _ _ _ _ hmatch, updateFirst, applyKw, errRunRow]

/-- `sync_orders` with no stored token (same shape). -/
theorem syncOrders_noAuth (env : ApiEnv) (shop : String) (db : Db)
    (hauth : getAuth db shop = none)
    (hwf : ∀ l ∈ db.logs, l.id < db.nextId) :
    syncOrders env shop db =
      ({ db with
          logs := db.logs ++ [errRunRow shop "orders" db.nextId db.clock]
          nextId := db.nextId + 1
          clock := db.clock + 2 }, ⟨0, 0, 0, 0⟩, 0) := by
  have hmatch : ∀ x ∈ db.logs, (fun (r : SyncLogRow) => r.id == db.nextId) x = false := by
    intro x hx
    have := hwf x hx
    simp only [beq_eq_false_iff_ne, ne_eq]
    omega
  simp [syncOrders, createSyncLog, updateLog, tick, getAuth_set_logs, hauth,
    updateFirst_append_of_none _ _ _ _ hmatch, updateFirst, applyKw, errRunRow]

/-- C1 (amended): when the token lookup for the shop returns nothing,
each of `sync_products`, `sync_customers` and `sync_orders` fails
immediately — zero page fetches, zero counters, every entity table
unchanged — but a sync-run record **is** created for that
`(shop_domain, entity_type)` and finalized with status `error` and
message `"No auth data found"`; the run store grows by exactly that one
row.  (The id-boundedness hypothesis says the log-id sequence is
consistent, which holds for every state the service itself builds.) -/
theorem c1_theorem (env : ApiEnv) (shop : String) (db : Db)
    (hauth : getAuth db shop = none)
    (hwf : ∀ l ∈ db.logs, l.id < db.nextId) :
    syncProducts env shop db =
      ({ db with
          logs := db.logs ++ [errRunRow shop "products" db.nextId db.clock]
          nextId := db.nextId + 1
          clock := db.clock + 2 }, ⟨0, 0, 0, 0⟩, 0) ∧
    syncCustomers env shop db =
      ({ db with
          logs := db.logs ++ [errRunRow shop "customers" db.nextId db.clock]
          nextId := db.nextId + 1
          clock := db.clock + 2 }, ⟨0, 0, 0, 0⟩, 0) ∧
    syncOrders env shop db =
      ({ db with
          logs := db.logs ++ [errRunRow shop "orders" db.nextId db.clock]
          nextId := db.nextId + 1
          clock := db.clock + 2 }, ⟨0, 0, 0, 0⟩, 0) :=
  ⟨syncProducts_noAuth env shop db hauth hwf,
   syncCustomers_noAuth env shop db hauth hwf,
   syncOrders_noAuth env shop db hauth hwf⟩

/-- Witness for `c1_theorem` at the concrete tokenless store. -/
theorem c1_witness :
    syncProducts envEmpty "s1.myshopify.com" dbNoAuth =
      ({ dbNoAuth with
          logs := [errRunRow "s1.myshopify.com" "products" 0 0]
          nextId := 1
          clock := 2 }, ⟨0, 0, 0, 0⟩, 0) :=
  (c1_theorem envEmpty "s1.myshopify.com" dbNoAuth (by decide) (by decide)).1

/-! ## Walk bookkeeping lemmas (shared) -/

theorem find?_updateFirst_same (p : α → Bool) (f : α → α) (l : List α)
    (hp : ∀ x, p (f x) = p x) :
    (updateFirst p f l).find? p = (l.find? p).map f := by
  induction l with
  | nil => rfl
  | cons a l ih =>
    by_cases ha : p a = true
    · simp [updateFirst, ha, List.find?_cons, hp a]
    · have ha' : p a = false := by simpa using ha
      simp [updateFirst, ha', List.find?_cons, ih]

theorem syncVariants_logs (db : Db) (p : ProductRow) (vs : List VariantNode) :
    (syncVariants db p vs).1.logs = db.logs := by
  unfold syncVariants
  split <;> rfl

theorem syncSingleProduct_logs (shop : String) (db : Db) (n : ProductNode) :
    (syncSingleProduct shop db n).1.logs = db.logs := by
  cases hf : findProduct db.products shop (stripProductGid n.id) <;>
    simp [syncSingleProduct, hf, syncVariants_logs, tick]

theorem productEdgeStep_logs (shop : String) (x : Db × Stats) (n : ProductNode) :
    (productEdgeStep shop x n).1.logs = x.1.logs := by
  cases hs : syncSingleProduct shop x.1 n with
  | mk db' ok =>
    have h : db'.logs = x.1.logs := by
      have h0 := syncSingleProduct_logs shop x.1 n
      rw [hs] at h0
      exact h0
    cases ok
    · simp [productEdgeStep, hs, h]
    · cases hc : classifyProduct db'.products shop (stripProductGid n.id) with
      | none => simp [productEdgeStep, hs, hc, h]
      | some b => cases b <;> simp [productEdgeStep, hs, hc, h]

theorem foldl_productEdgeStep_logs (shop : String) (edges : List ProductNode)
    (x : Db × Stats) :
    (List.foldl (productEdgeStep shop) x edges).1.logs = x.1.logs := by
  induction edges generalizing x with
  | nil => rfl
  | cons e es ih => rw [List.foldl_cons, ih, productEdgeStep_logs]

theorem updateLog_find_self (db : Db) (i : Nat) (s : String) (k : LogKw) :
    ((updateLog db i s k).logs.find? (fun r => r.id == i)) =
      ((db.logs.find? (fun r => r.id == i)).map
        (fun r => applyKw
          { r with
            status := s
            end_time := some db.clock
            duration_seconds := some (db.clock - r.start_time) } k)) := by
  unfold updateLog tick
  exact find?_updateFirst_same _ _ _ (fun x => rfl)

def lastHasNext (pages : List (Page ProductNode)) : Bool :=
  match pages.getLast? with
  | some p => p.pageInfo.hasNextPage
  | none => false

theorem productsWalk_step_true (shop : String) (logId : Nat)
    (pg : Page ProductNode) (rest : List (Page ProductNode)) (db : Db)
    (stats : Stats) (hE : pg.edges.isEmpty = false)
    (hn : pg.pageInfo.hasNextPage = true) :
    productsWalk shop logId (pg :: rest) db stats =
      ((productsWalk shop logId rest
          (updateLog (List.foldl (productEdgeStep shop) (db, stats) pg.edges).1
            logId "in_progress"
            { records_processed :=
                some (List.foldl (productEdgeStep shop) (db, stats) pg.edges).2.processed
              last_cursor := some pg.pageInfo.endCursor })
          (List.foldl (productEdgeStep shop) (db, stats) pg.edges).2).1,
        (productsWalk shop logId rest
          (updateLog (List.foldl (productEdgeStep shop) (db, stats) pg.edges).1
            logId "in_progress"
            { records_processed :=
                some (List.foldl (productEdgeStep shop) (db, stats) pg.edges).2.processed
              last_cursor := some pg.pageInfo.endCursor })
          (List.foldl (productEdgeStep shop) (db, stats) pg.edges).2).2.1,
        (productsWalk shop logId rest
          (updateLog (List.foldl (productEdgeStep shop) (db, stats) pg.edges).1
            logId "in_progress"
            { records_processed :=
                some (List.foldl (productEdgeStep shop) (db, stats) pg.edges).2.processed
              last_cursor := some pg.pageInfo.endCursor })
          (List.foldl (productEdgeStep shop) (db, stats) pg.edges).2).2.2 + 1) := by
  simp only [productsWalk, hE, hn, Bool.false_eq_true, Bool.true_eq_false,
    if_true, if_false, ite_true, ite_false]

theorem productsWalk_step_last (shop : String) (logId : Nat)
    (pg : Page ProductNode) (rest : List (Page ProductNode)) (db : Db)
    (stats : Stats) (hE : pg.edges.isEmpty = false)
    (hn : pg.pageInfo.hasNextPage = false) :
    productsWalk shop logId (pg :: rest) db stats =
      (updateLog (List.foldl (productEdgeStep shop) (db, stats) pg.edges).1
        logId "in_progress"
        { records_processed :=
            some (List.foldl (productEdgeStep shop) (db, stats) pg.edges).2.processed
          last_cursor := some none },
        (List.foldl (productEdgeStep shop) (db, stats) pg.edges).2, 1) := by
  simp only [productsWalk, hE, hn, Bool.false_eq_true, Bool.true_eq_false,
    if_true, if_false, ite_true, ite_false]

theorem productsWalk_count (shop : String) (logId : Nat) :
    ∀ (pages : List (Page ProductNode)) (db : Db) (stats : Stats),
    pages ≠ [] →
    (∀ p ∈ pages.dropLast, p.pageInfo.hasNextPage = true) →
    (∀ p ∈ pages, p.edges ≠ []) →
    lastHasNext pages = false →
    (productsWalk shop logId pages db stats).2.2 = pages.length := by
  intro pages
  induction pages with
  | nil => intro db stats hne _ _ _; exact absurd rfl hne
  | cons pg rest ih =>
    intro db stats _ hmid hedges hlast
    have hedge : pg.edges ≠ [] := hedges pg (List.mem_cons_self _ _)
    have hE : pg.edges.isEmpty = false := by
      cases hEE : pg.edges with
      | nil => exact absurd hEE hedge
      | cons a l => rfl
    cases rest with
    | nil =>
      have hn : pg.pageInfo.hasNextPage = false := by
        simpa [lastHasNext] using hlast
      rw [productsWalk_step_last shop logId pg [] db stats hE hn]
      rfl
    | cons r1 rs =>
      have hn : pg.pageInfo.hasNextPage = true :=
        hmid pg (by simp [List.dropLast])
      have hmid' : ∀ p ∈ (r1 :: rs).dropLast, p.pageInfo.hasNextPage = true := by
        intro p hp
        refine hmid p ?_
        simp [List.dropLast] at hp ⊢
        right; exact hp
      have hedges' : ∀ p ∈ r1 :: rs, p.edges ≠ [] := fun p hp =>
        hedges p (List.mem_cons_of_mem _ hp)
      have hlast' : lastHasNext (r1 :: rs) = false := by
        simpa [lastHasNext, List.getLast?_cons_cons] using hlast
      rw [productsWalk_step_true shop logId pg (r1 :: rs) db stats hE hn]
      simp only [List.length_cons]
      rw [ih _ _ (by simp) hmid' hedges' hlast']
      simp

theorem productsWalk_cursor (shop : String) (logId : Nat) :
    ∀ (pages : List (Page ProductNode)) (db : Db) (stats : Stats),
    pages ≠ [] →
    (∀ p ∈ pages.dropLast, p.pageInfo.hasNextPage = true) →
    (∀ p ∈ pages, p.edges ≠ []) →
    lastHasNext pages = false →
    ((productsWalk shop logId pages db stats).1.logs.find? (fun r => r.id == logId)).map
      (fun r => r.last_cursor) =
      ((db.logs.find? (fun r => r.id == logId)).map (fun _ => (none : Option String))) := by
  intro pages
  induction pages with
  | nil => intro db stats hne _ _ _; exact absurd rfl hne
  | cons pg rest ih =>
    intro db stats _ hmid hedges hlast
    have hedge : pg.edges ≠ [] := hedges pg (List.mem_cons_self _ _)
    have hE : pg.edges.isEmpty = false := by
      cases hEE : pg.edges with
      | nil => exact absurd hEE hedge
      | cons a l => rfl
    have hxlogs : (List.foldl (productEdgeStep shop) (db, stats) pg.edges).1.logs = db.logs :=
      foldl_productEdgeStep_logs shop pg.edges (db, stats)
    cases rest with
    | nil =>
      have hn : pg.pageInfo.hasNextPage = false := by
        simpa [lastHasNext] using hlast
      rw [productsWalk_step_last shop logId pg [] db stats hE hn]
      simp only []
      rw [updateLog_find_self, hxlogs]
      cases ho : db.logs.find? (fun r => r.id == logId) <;> simp [applyKw]
    | cons r1 rs =>
      have hn : pg.pageInfo.hasNextPage = true :=
        hmid pg (by simp [List.dropLast])
      have hmid' : ∀ p ∈ (r1 :: rs).dropLast, p.pageInfo.hasNextPage = true := by
        intro p hp
        refine hmid p ?_
        simp [List.dropLast] at hp ⊢
        right; exact hp
      have hedges' : ∀ p ∈ r1 :: rs, p.edges ≠ [] := fun p hp =>
        hedges p (List.mem_cons_of_mem _ hp)
      have hlast' : lastHasNext (r1 :: rs) = false := by
        simpa [lastHasNext, List.getLast?_cons_cons] using hlast
      rw [productsWalk_step_true shop logId pg (r1 :: rs) db stats hE hn]
      simp only []
      rw [ih _ _ (by simp) hmid' hedges' hlast']
      rw [updateLog_find_self, hxlogs]
      cases ho : db.logs.find? (fun r => r.id == logId) <;> simp [applyKw]

theorem getAuth_createSyncLog (db : Db) (shop ty s2 : String) :
    getAuth (createSyncLog db shop ty).1 s2 = getAuth db s2 := rfl

theorem find?_append_singleton_isSome (l1 : List α) (a : α) (p : α → Bool)
    (ha : p a = true) :
    ∃ x, ((l1 ++ [a]).find? p) = some x := by
  induction l1 with
  | nil => exact ⟨a, by simp [List.find?_cons, ha]⟩
  | cons b l ih =>
    by_cases hb : p b = true
    · exact ⟨b, by simp [List.find?_cons, hb]⟩
    · have hb' : p b = false := by simpa using hb
      obtain ⟨x, hx⟩ := ih
      exact ⟨x, by simp [List.find?_cons, hb', hx]⟩

/-- C2 (amended): for every finite page sequence whose last page
reports `hasNextPage=false` (intermediate pages reporting `true`, all
pages non-empty, as a genuinely fetched sequence is), the pagination
walk of `sync_products` issues exactly one fetch call per page — but
the final cursor recorded in the run's `last_cursor` is `None`, not the
last page's `endCursor`: the loop nulls the cursor variable once
`hasNextPage` is false and the success update never writes the
column. -/
theorem c2_theorem (env : ApiEnv) (shop : String) (db : Db) (tok : String)
    (hauth : getAuth db shop = some tok)
    (hne : env.productPages ≠ [])
    (hmid : ∀ p ∈ env.productPages.dropLast, p.pageInfo.hasNextPage = true)
    (hedges : ∀ p ∈ env.productPages, p.edges ≠ [])
    (hlast : lastHasNext env.productPages = false) :
    (syncProducts env shop db).2.2 = env.productPages.length ∧
    ((syncProducts env shop db).1.logs.find? (fun r => r.id == db.nextId)).map
      (fun r => r.last_cursor) = some none := by
  unfold syncProducts
  simp only [getAuth_createSyncLog, hauth]
  constructor
  · simpa using productsWalk_count shop db.nextId env.productPages
      (createSyncLog db shop "products").1 ⟨0, 0, 0, 0⟩ hne hmid hedges hlast
  · rw [show (createSyncLog db shop "products").2 = db.nextId from rfl]
    have hw := productsWalk_cursor shop db.nextId env.productPages
      (createSyncLog db shop "products").1 ⟨0, 0, 0, 0⟩ hne hmid hedges hlast
    obtain ⟨row0, hrow0⟩ := find?_append_singleton_isSome db.logs
      ({ id := db.nextId, shop_domain := shop, sync_type := "products",
         status := "in_progress", records_processed := 0, records_created := 0,
         records_updated := 0, records_failed := 0, error_message := none,
         start_time := db.clock, end_time := none, duration_seconds := none,
         last_cursor := none } : SyncLogRow) (fun r => r.id == db.nextId) (by simp)
    rw [show (createSyncLog db shop "products").1.logs = db.logs ++
      [{ id := db.nextId, shop_domain := shop, sync_type := "products",
         status := "in_progress", records_processed := 0, records_created := 0,
         records_updated := 0, records_failed := 0, error_message := none,
         start_time := db.clock, end_time := none, duration_seconds := none,
         last_cursor := none }] from rfl, hrow0] at hw
    cases hfind : (productsWalk shop db.nextId env.productPages
        (createSyncLog db shop "products").1 ⟨0, 0, 0, 0⟩).1.logs.find?
        (fun r => r.id == db.nextId) with
    | none => rw [hfind] at hw; simp at hw
    | some row =>
      rw [hfind] at hw
      simp at hw
      rw [updateLog_find_self, hfind]
      simpa [applyKw] using hw

/-- Witness for `c2_theorem` at the concrete single-page feed. -/
theorem c2_witness :
    (syncProducts envOnePage "s1.myshopify.com" dbAuth).2.2 = 1 ∧
    ((syncProducts envOnePage "s1.myshopify.com" dbAuth).1.logs.find?
      (fun r => r.id == 1)).map (fun r => r.last_cursor) = some none :=
  c2_theorem envOnePage "s1.myshopify.com" dbAuth "tok" (by decide) (by decide)
    (by decide) (by decide) (by decide)

theorem syncSingleCustomer_logs (shop : String) (db : Db) (n : CustomerNode) :
    (syncSingleCustomer shop db n).1.logs = db.logs := by
  cases h1 : parseDec (n.totalSpentAmount.getD "0") with
  | none => simp [syncSingleCustomer, h1]
  | some ts =>
    cases h2 : findCustomer db.customers shop (stripCustomerGid n.id) <;>
      simp [syncSingleCustomer, h1, h2, tick]

theorem customerEdgeStep_logs (shop : String) (x : Db × Stats) (n : CustomerNode) :
    (customerEdgeStep shop x n).1.logs = x.1.logs := by
  cases hs : syncSingleCustomer shop x.1 n with
  | mk db' ok =>
    have h : db'.logs = x.1.logs := by
      have h0 := syncSingleCustomer_logs shop x.1 n
      rw [hs] at h0
      exact h0
    cases ok
    · simp [customerEdgeStep, hs, h]
    · cases hc : classifyCustomer db'.customers shop (stripCustomerGid n.id) with
      | none => simp [customerEdgeStep, hs, hc, h]
      | some b => cases b <;> simp [customerEdgeStep, hs, hc, h]

theorem foldl_customerEdgeStep_logs (shop : String) (edges : List CustomerNode)
    (x : Db × Stats) :
    (List.foldl (customerEdgeStep shop) x edges).1.logs = x.1.logs := by
  induction edges generalizing x with
  | nil => rfl
  | cons e es ih => rw [List.foldl_cons, ih, customerEdgeStep_logs]

theorem customersWalk_logs (shop : String) :
    ∀ (pages : List (Page CustomerNode)) (db : Db) (stats : Stats),
    (customersWalk shop pages db stats).1.logs = db.logs := by
  intro pages
  induction pages with
  | nil => intro db stats; rfl
  | cons pg rest ih =>
    intro db stats
    by_cases hE : pg.edges.isEmpty
    · simp [customersWalk, hE]
    · have hE' : pg.edges.isEmpty = false := by simpa using hE
      cases hn : pg.pageInfo.hasNextPage with
      | false =>
        simp only [customersWalk, hE', hn, Bool.false_eq_true, Bool.true_eq_false,
          if_true, if_false, ite_true, ite_false]
        exact foldl_customerEdgeStep_logs shop pg.edges (db, stats)
      | true =>
        simp only [customersWalk, hE', hn, Bool.false_eq_true, Bool.true_eq_false,
          if_true, if_false, ite_true, ite_false]
        rw [ih]
        exact foldl_customerEdgeStep_logs shop pg.edges (db, stats)

/-- C9 (amended): the per-page checkpoint of the products loop persists
**only** `records_processed` and `last_cursor` — the
persisted `records_created`/`records_updated`/`records_failed` keep
their previous values regardless of the in-memory stats — and the
customers loop persists no per-page checkpoint at all (its run row is
touched only by the final update).  Stated for a terminal page, whose
checkpoint state is the walk's result. -/
theorem c9_theorem :
    (∀ (shop : String) (logId : Nat) (pg : Page ProductNode) (db : Db)
      (stats : Stats) (row : SyncLogRow),
      pg.edges ≠ [] →
      pg.pageInfo.hasNextPage = false →
      db.logs.find? (fun r => r.id == logId) = some row →
      ∃ row',
        (productsWalk shop logId [pg] db stats).1.logs.find?
          (fun r => r.id == logId) = some row' ∧
        row'.status = "in_progress" ∧
        row'.records_processed =
          (productsWalk shop logId [pg] db stats).2.1.processed ∧
        row'.last_cursor = none ∧
        row'.records_created = row.records_created ∧
        row'.records_updated = row.records_updated ∧
        row'.records_failed = row.records_failed) ∧
    (∀ (shop : String) (pages : List (Page CustomerNode)) (db : Db)
      (stats : Stats),
      (customersWalk shop pages db stats).1.logs = db.logs) := by
  constructor
  · intro shop logId pg db stats row hedge hn hrow
    have hE : pg.edges.isEmpty = false := by
      cases hEE : pg.edges with
      | nil => exact absurd hEE hedge
      | cons a l => rfl
    have hxlogs : (List.foldl (productEdgeStep shop) (db, stats) pg.edges).1.logs = db.logs :=
      foldl_productEdgeStep_logs shop pg.edges (db, stats)
    rw [productsWalk_step_last shop logId pg [] db stats hE hn]
    dsimp only
    rw [updateLog_find_self, hxlogs, hrow]
    exact ⟨_, rfl, rfl, rfl, rfl, rfl, rfl, rfl⟩
  · exact customersWalk_logs

/-- Witness for `c9_theorem` at the concrete two-product page. -/
theorem c9_witness :
    ∃ row',
      (productsWalk "s1.myshopify.com" 1
        [⟨[pnode "1", pnode "2"], ⟨false, some "A"⟩⟩] dbWithLog
        ⟨0, 0, 0, 0⟩).1.logs.find? (fun r => r.id == 1) = some row' ∧
      row'.status = "in_progress" ∧
      row'.records_processed =
        (productsWalk "s1.myshopify.com" 1
          [⟨[pnode "1", pnode "2"], ⟨false, some "A"⟩⟩] dbWithLog
          ⟨0, 0, 0, 0⟩).2.1.processed ∧
      row'.last_cursor = none ∧
      row'.records_created = logRow1.records_created ∧
      row'.records_updated = logRow1.records_updated ∧
      row'.records_failed = logRow1.records_failed :=
  c9_theorem.1 "s1.myshopify.com" 1
    ⟨[pnode "1", pnode "2"], ⟨false, some "A"⟩⟩ dbWithLog ⟨0, 0, 0, 0⟩ logRow1
    (by decide) (by decide) (by decide)

/-! ## Frame lemmas: what each operation leaves untouched -/

theorem map_updateFirst (g : α → β) (p : α → Bool) (f : α → α) (l : List α)
    (h : ∀ x, g (f x) = g x) :
    (updateFirst p f l).map g = l.map g := by
  induction l with
  | nil => rfl
  | cons a l ih =>
    by_cases ha : p a = true
    · simp [updateFirst, ha, h a]
    · have ha' : p a = false := by simpa using ha
      simp [updateFirst, ha', ih]

/-- Components of the state untouched by the products-sync pipeline. -/
def prodFrame (a b : Db) : Prop :=
  a.auth = b.auth ∧ a.shops = b.shops ∧ a.customers = b.customers ∧
  a.orders = b.orders ∧ a.lineItems = b.lineItems

theorem prodFrame_refl (a : Db) : prodFrame a a := ⟨rfl, rfl, rfl, rfl, rfl⟩

theorem prodFrame_trans {a b c : Db} (h1 : prodFrame a b) (h2 : prodFrame b c) :
    prodFrame a c := by
  obtain ⟨x1, x2, x3, x4, x5⟩ := h1
  obtain ⟨y1, y2, y3, y4, y5⟩ := h2
  exact ⟨x1.trans y1, x2.trans y2, x3.trans y3, x4.trans y4, x5.trans y5⟩

theorem updateLog_prodFrame (db : Db) (i : Nat) (s : String) (k : LogKw) :
    prodFrame (updateLog db i s k) db :=
  ⟨rfl, rfl, rfl, rfl, rfl⟩

theorem createSyncLog_prodFrame (db : Db) (shop ty : String) :
    prodFrame (createSyncLog db shop ty).1 db :=
  ⟨rfl, rfl, rfl, rfl, rfl⟩

theorem syncVariants_prodFrame (db : Db) (p : ProductRow) (vs : List VariantNode) :
    prodFrame (syncVariants db p vs).1 db := by
  unfold syncVariants
  split <;> exact ⟨rfl, rfl, rfl, rfl, rfl⟩

theorem syncSingleProduct_prodFrame (shop : String) (db : Db) (n : ProductNode) :
    prodFrame (syncSingleProduct shop db n).1 db := by
  cases hf : findProduct db.products shop (stripProductGid n.id) <;>
    · unfold syncSingleProduct
      simp only [hf]
      exact prodFrame_trans (syncVariants_prodFrame _ _ _) ⟨rfl, rfl, rfl, rfl, rfl⟩

theorem productEdgeStep_prodFrame (shop : String) (x : Db × Stats) (n : ProductNode) :
    prodFrame (productEdgeStep shop x n).1 x.1 := by
  cases hs : syncSingleProduct shop x.1 n with
  | mk db' ok =>
    have h : prodFrame db' x.1 := by
      have h0 := syncSingleProduct_prodFrame shop x.1 n
      rw [hs] at h0
      exact h0
    cases ok
    · simp only [productEdgeStep, hs]
      exact h
    · cases hc : classifyProduct db'.products shop (stripProductGid n.id) with
      | none => simp only [productEdgeStep, hs, hc]; exact h
      | some b => cases b <;> simp only [productEdgeStep, hs, hc] <;> exact h

theorem foldl_productEdgeStep_prodFrame (shop : String) (edges : List ProductNode)
    (x : Db × Stats) :
    prodFrame (List.foldl (productEdgeStep shop) x edges).1 x.1 := by
  induction edges generalizing x with
  | nil => exact prodFrame_refl _
  | cons e es ih =>
    rw [List.foldl_cons]
    exact prodFrame_trans (ih _) (productEdgeStep_prodFrame shop x e)

theorem productsWalk_prodFrame (shop : String) (logId : Nat) :
    ∀ (pages : List (Page ProductNode)) (db : Db) (stats : Stats),
    prodFrame (productsWalk shop logId pages db stats).1 db := by
  intro pages
  induction pages with
  | nil => intro db stats; exact prodFrame_refl _
  | cons pg rest ih =>
    intro db stats
    by_cases hE : pg.edges.isEmpty
    · simp only [productsWalk, hE, if_true, ite_true]
      exact prodFrame_refl _
    · have hE' : pg.edges.isEmpty = false := by simpa using hE
      cases hn : pg.pageInfo.hasNextPage with
      | false =>
        rw [productsWalk_step_last shop logId pg rest db stats hE' hn]
        exact prodFrame_trans (updateLog_prodFrame _ _ _ _)
          (foldl_productEdgeStep_prodFrame shop pg.edges (db, stats))
      | true =>
        rw [productsWalk_step_true shop logId pg rest db stats hE' hn]
        exact prodFrame_trans (ih _ _)
          (prodFrame_trans (updateLog_prodFrame _ _ _ _)
            (foldl_productEdgeStep_prodFrame shop pg.edges (db, stats)))

theorem syncProducts_prodFrame (env : ApiEnv) (shop : String) (db : Db) :
    prodFrame (syncProducts env shop db).1 db := by
  unfold syncProducts
  cases hauth : getAuth (createSyncLog db shop "products").1 shop with
  | none =>
    simp only [hauth]
    exact prodFrame_trans (updateLog_prodFrame _ _ _ _)
      (createSyncLog_prodFrame db shop "products")
  | some tok =>
    simp only [hauth]
    exact prodFrame_trans (updateLog_prodFrame _ _ _ _)
      (prodFrame_trans (productsWalk_prodFrame shop _ env.productPages _ _)
        (createSyncLog_prodFrame db shop "products"))

/-- Components untouched by the customers-sync pipeline below the
run-log level. -/
def custFrame (a b : Db) : Prop :=
  a.auth = b.auth ∧ a.shops = b.shops ∧ a.products = b.products ∧
  a.variants = b.variants ∧ a.orders = b.orders ∧ a.lineItems = b.lineItems

theorem custFrame_refl (a : Db) : custFrame a a := ⟨rfl, rfl, rfl, rfl, rfl, rfl⟩

theorem custFrame_trans {a b c : Db} (h1 : custFrame a b) (h2 : custFrame b c) :
    custFrame a c := by
  obtain ⟨x1, x2, x3, x4, x5, x6⟩ := h1
  obtain ⟨y1, y2, y3, y4, y5, y6⟩ := h2
  exact ⟨x1.trans y1, x2.trans y2, x3.trans y3, x4.trans y4, x5.trans y5, x6.trans y6⟩

theorem syncSingleCustomer_custFrame (shop : String) (db : Db) (n : CustomerNode) :
    custFrame (syncSingleCustomer shop db n).1 db := by
  cases h1 : parseDec (n.totalSpentAmount.getD "0") with
  | none => simp only [syncSingleCustomer, h1]; exact custFrame_refl _
  | some ts =>
    cases h2 : findCustomer db.customers shop (stripCustomerGid n.id) <;>
      · simp only [syncSingleCustomer, h1, h2]
        exact ⟨rfl, rfl, rfl, rfl, rfl, rfl⟩

theorem customerEdgeStep_custFrame (shop : String) (x : Db × Stats) (n : CustomerNode) :
    custFrame (customerEdgeStep shop x n).1 x.1 := by
  cases hs : syncSingleCustomer shop x.1 n with
  | mk db' ok =>
    have h : custFrame db' x.1 := by
      have h0 := syncSingleCustomer_custFrame shop x.1 n
      rw [hs] at h0
      exact h0
    cases ok
    · simp only [customerEdgeStep, hs]; exact h
    · cases hc : classifyCustomer db'.customers shop (stripCustomerGid n.id) with
      | none => simp only [customerEdgeStep, hs, hc]; exact h
      | some b => cases b <;> simp only [customerEdgeStep, hs, hc] <;> exact h

theorem foldl_customerEdgeStep_custFrame (shop : String) (edges : List CustomerNode)
    (x : Db × Stats) :
    custFrame (List.foldl (customerEdgeStep shop) x edges).1 x.1 := by
  induction edges generalizing x with
  | nil => exact custFrame_refl _
  | cons e es ih =>
    rw [List.foldl_cons]
    exact custFrame_trans (ih _) (customerEdgeStep_custFrame shop x e)

theorem customersWalk_custFrame (shop : String) :
    ∀ (pages : List (Page CustomerNode)) (db : Db) (stats : Stats),
    custFrame (customersWalk shop pages db stats).1 db := by
  intro pages
  induction pages with
  | nil => intro db stats; exact custFrame_refl _
  | cons pg rest ih =>
    intro db stats
    by_cases hE : pg.edges.isEmpty
    · simp only [customersWalk, hE, if_true, ite_true]
      exact custFrame_refl _
    · have hE' : pg.edges.isEmpty = false := by simpa using hE
      cases hn : pg.pageInfo.hasNextPage with
      | false =>
        simp only [customersWalk, hE', hn, Bool.false_eq_true, Bool.true_eq_false,
          if_true, if_false, ite_true, ite_false]
        exact foldl_customerEdgeStep_custFrame shop pg.edges (db, stats)
      | true =>
        simp only [customersWalk, hE', hn, Bool.false_eq_true, Bool.true_eq_false,
          if_true, if_false, ite_true, ite_false]
        exact custFrame_trans (ih _ _)
          (foldl_customerEdgeStep_custFrame shop pg.edges (db, stats))

theorem updateLog_custFrame (db : Db) (i : Nat) (s : String) (k : LogKw) :
    custFrame (updateLog db i s k) db :=
  ⟨rfl, rfl, rfl, rfl, rfl, rfl⟩

theorem syncCustomers_custFrame (env : ApiEnv) (shop : String) (db : Db) :
    custFrame (syncCustomers env shop db).1 db := by
  unfold syncCustomers
  cases hauth : getAuth (createSyncLog db shop "customers").1 shop with
  | none =>
    simp only [hauth]
    exact custFrame_trans (updateLog_custFrame _ _ _ _) ⟨rfl, rfl, rfl, rfl, rfl, rfl⟩
  | some tok =>
    simp only [hauth]
    exact custFrame_trans (updateLog_custFrame _ _ _ _)
      (custFrame_trans (customersWalk_custFrame shop env.customerPages _ _)
        ⟨rfl, rfl, rfl, rfl, rfl, rfl⟩)

/-- Components untouched by a single order upsert (everything the
per-record step leaves alone, including the run log). -/
def ordStepFrame (a b : Db) : Prop :=
  a.auth = b.auth ∧ a.shops = b.shops ∧ a.products = b.products ∧
  a.variants = b.variants ∧ a.logs = b.logs

theorem ordStepFrame_refl (a : Db) : ordStepFrame a a := ⟨rfl, rfl, rfl, rfl, rfl⟩

theorem ordStepFrame_trans {a b c : Db} (h1 : ordStepFrame a b)
    (h2 : ordStepFrame b c) : ordStepFrame a c := by
  obtain ⟨x1, x2, x3, x4, x5⟩ := h1
  obtain ⟨y1, y2, y3, y4, y5⟩ := h2
  exact ⟨x1.trans y1, x2.trans y2, x3.trans y3, x4.trans y4, x5.trans y5⟩

theorem syncOrderCustomer_frame (shop : String) (db : Db) (c : OrderCustomerNode) :
    ordStepFrame (syncOrderCustomer shop db c).1 db ∧
    (syncOrderCustomer shop db c).1.orders = db.orders ∧
    (syncOrderCustomer shop db c).1.lineItems = db.lineItems := by
  by_cases hid : c.id = ""
  · simp only [syncOrderCustomer, hid, if_true, ite_true]
    unfold ordStepFrame
    and_intros <;> (first | rfl | trivial)
  · cases hf : findCustomer db.customers shop (stripCustomerGid c.id) with
    | some cust =>
      by_cases htr : truthyStr c.totalSpentAmount = true
      · cases hp : parseDec (c.totalSpentAmount.getD "") with
        | none =>
          simp only [syncOrderCustomer, if_neg hid, hf, htr, hp, if_true, ite_true]
          unfold ordStepFrame
          and_intros <;> (first | rfl | trivial)
        | some ts =>
          simp only [syncOrderCustomer, if_neg hid, hf, htr, hp, if_true, ite_true]
          unfold ordStepFrame
          and_intros <;> (first | rfl | trivial)
      · have htr' : truthyStr c.totalSpentAmount = false := by simpa using htr
        simp only [syncOrderCustomer, if_neg hid, hf, htr', Bool.false_eq_true,
          if_false, ite_false]
        unfold ordStepFrame
        and_intros <;> (first | rfl | trivial)
    | none =>
      cases hp : parseDec (c.totalSpentAmount.getD "0") with
      | none =>
        simp only [syncOrderCustomer, if_neg hid, hf, hp]
        unfold ordStepFrame
        and_intros <;> (first | rfl | trivial)
      | some ts =>
        simp only [syncOrderCustomer, if_neg hid, hf, hp]
        unfold ordStepFrame
        and_intros <;> (first | rfl | trivial)

theorem syncOrderLineItems_frame (db : Db) (o : OrderRow) (items : List LineItemNode) :
    ordStepFrame (syncOrderLineItems db o items).1 db ∧
    (syncOrderLineItems db o items).1.orders = db.orders ∧
    (syncOrderLineItems db o items).1.customers = db.customers := by
  unfold syncOrderLineItems
  cases hb : buildLineItemsAux db.products o items [] db.nextId db.clock with
  | none =>
    simp only [hb]
    unfold ordStepFrame
    and_intros <;> (first | rfl | trivial)
  | some out =>
    obtain ⟨rows, nid, clk⟩ := out
    simp only [hb]
    unfold ordStepFrame
    and_intros <;> (first | rfl | trivial)

theorem syncOrderBody_frame (shop : String) (db1 : Db) (cid : Option Nat)
    (n : OrderNode) :
    ordStepFrame (syncOrderBody shop db1 cid n).1 db1 := by
  unfold syncOrderBody
  cases hp1 : parseDec (bagAmount n.totalPrice) with
  | none => simp only [hp1]; exact ordStepFrame_refl _
  | some tp =>
  cases hp2 : parseDec (bagAmount n.subtotalPrice) with
  | none => simp only [hp1, hp2]; exact ordStepFrame_refl _
  | some sp =>
  cases hp3 : parseDec (bagAmount n.totalTax) with
  | none => simp only [hp1, hp2, hp3]; exact ordStepFrame_refl _
  | some tt =>
  cases hp4 : parseDec (bagAmount n.totalDiscounts) with
  | none => simp only [hp1, hp2, hp3, hp4]; exact ordStepFrame_refl _
  | some td =>
  cases hp5 : parseDec (bagAmount n.totalShipping) with
  | none => simp only [hp1, hp2, hp3, hp4, hp5]; exact ordStepFrame_refl _
  | some tsh =>
  simp only [hp1, hp2, hp3, hp4, hp5]
  cases hfo : db1.orders.find? (fun r => r.shop_domain == shop &&
      r.shopify_order_id == stripOrderGid n.id) with
  | some o =>
    simp only [hfo]
    exact ordStepFrame_trans ((syncOrderLineItems_frame _ _ _).1)
      ⟨rfl, rfl, rfl, rfl, rfl⟩
  | none =>
    simp only [hfo]
    exact ordStepFrame_trans ((syncOrderLineItems_frame _ _ _).1)
      ⟨rfl, rfl, rfl, rfl, rfl⟩

theorem syncSingleOrder_frame (shop : String) (db : Db) (n : OrderNode) :
    ordStepFrame (syncSingleOrder shop db n).1 db := by
  cases hc : n.customer with
  | none =>
    simp only [syncSingleOrder, hc]
    exact syncOrderBody_frame shop db none n
  | some c =>
    cases hcs : syncOrderCustomer shop db c with
    | mk db1 res =>
      have hfr : ordStepFrame db1 db := by
        have h0 := (syncOrderCustomer_frame shop db c).1
        rw [hcs] at h0
        exact h0
      cases res with
      | none =>
        simp only [syncSingleOrder, hc, hcs]
        exact hfr
      | some cid =>
        simp only [syncSingleOrder, hc, hcs]
        exact ordStepFrame_trans (syncOrderBody_frame shop db1 cid n) hfr

theorem orderEdgeStep_frame (shop : String) (x : Db × Stats) (n : OrderNode) :
    ordStepFrame (orderEdgeStep shop x n).1 x.1 := by
  cases hs : syncSingleOrder shop x.1 n with
  | mk db' ok =>
    have h : ordStepFrame db' x.1 := by
      have h0 := syncSingleOrder_frame shop x.1 n
      rw [hs] at h0
      exact h0
    cases ok
    · simp only [orderEdgeStep, hs]; exact h
    · cases hc : classifyOrder db'.orders shop (stripOrderGid n.id) with
      | none => simp only [orderEdgeStep, hs, hc]; exact h
      | some b => cases b <;> simp only [orderEdgeStep, hs, hc] <;> exact h

theorem foldl_orderEdgeStep_frame (shop : String) (edges : List OrderNode)
    (x : Db × Stats) :
    ordStepFrame (List.foldl (orderEdgeStep shop) x edges).1 x.1 := by
  induction edges generalizing x with
  | nil => exact ordStepFrame_refl _
  | cons e es ih =>
    rw [List.foldl_cons]
    exact ordStepFrame_trans (ih _) (orderEdgeStep_frame shop x e)

theorem ordersWalk_step_true (shop : String) (logId : Nat)
    (pg : Page OrderNode) (rest : List (Page OrderNode)) (db : Db)
    (stats : Stats) (hE : pg.edges.isEmpty = false)
    (hn : pg.pageInfo.hasNextPage = true) :
    ordersWalk shop logId (pg :: rest) db stats =
      ((ordersWalk shop logId rest
          (updateLog (List.foldl (orderEdgeStep shop) (db, stats) pg.edges).1
            logId "in_progress"
            { records_processed :=
                some (List.foldl (orderEdgeStep shop) (db, stats) pg.edges).2.processed
              last_cursor := some pg.pageInfo.endCursor })
          (List.foldl (orderEdgeStep shop) (db, stats) pg.edges).2).1,
        (ordersWalk shop logId rest
          (updateLog (List.foldl (orderEdgeStep shop) (db, stats) pg.edges).1
            logId "in_progress"
            { records_processed :=
                some (List.foldl (orderEdgeStep shop) (db, stats) pg.edges).2.processed
              last_cursor := some pg.pageInfo.endCursor })
          (List.foldl (orderEdgeStep shop) (db, stats) pg.edges).2).2.1,
        (ordersWalk shop logId rest
          (updateLog (List.foldl (orderEdgeStep shop) (db, stats) pg.edges).1
            logId "in_progress"
            { records_processed :=
                some (List.foldl (orderEdgeStep shop) (db, stats) pg.edges).2.processed
              last_cursor := some pg.pageInfo.endCursor })
          (List.foldl (orderEdgeStep shop) (db, stats) pg.edges).2).2.2 + 1) := by
  simp only [ordersWalk, hE, hn, Bool.false_eq_true, Bool.true_eq_false,
    if_true, if_false, ite_true, ite_false]

theorem ordersWalk_step_last (shop : String) (logId : Nat)
    (pg : Page OrderNode) (rest : List (Page OrderNode)) (db : Db)
    (stats : Stats) (hE : pg.edges.isEmpty = false)
    (hn : pg.pageInfo.hasNextPage = false) :
    ordersWalk shop logId (pg :: rest) db stats =
      (updateLog (List.foldl (orderEdgeStep shop) (db, stats) pg.edges).1
        logId "in_progress"
        { records_processed :=
            some (List.foldl (orderEdgeStep shop) (db, stats) pg.edges).2.processed
          last_cursor := some none },
        (List.foldl (orderEdgeStep shop) (db, stats) pg.edges).2, 1) := by
  simp only [ordersWalk, hE, hn, Bool.false_eq_true, Bool.true_eq_false,
    if_true, if_false, ite_true, ite_false]

theorem updateLog_logsMap (db : Db) (i : Nat) (s : String) (k : LogKw) :
    (updateLog db i s k).logs.map (fun r => r.sync_type) =
      db.logs.map (fun r => r.sync_type) := by
  unfold updateLog tick
  exact map_updateFirst _ _ _ _ (fun x => rfl)

theorem ordersWalk_logsMap (shop : String) (logId : Nat) :
    ∀ (pages : List (Page OrderNode)) (db : Db) (stats : Stats),
    (ordersWalk shop logId pages db stats).1.logs.map (fun r => r.sync_type) =
      db.logs.map (fun r => r.sync_type) := by
  intro pages
  induction pages with
  | nil => intro db stats; rfl
  | cons pg rest ih =>
    intro db stats
    by_cases hE : pg.edges.isEmpty
    · simp only [ordersWalk, hE, if_true, ite_true]
    · have hE' : pg.edges.isEmpty = false := by simpa using hE
      have hfold : (List.foldl (orderEdgeStep shop) (db, stats) pg.edges).1.logs = db.logs :=
        (foldl_orderEdgeStep_frame shop pg.edges (db, stats)).2.2.2.2
      cases hn : pg.pageInfo.hasNextPage with
      | false =>
        rw [ordersWalk_step_last shop logId pg rest db stats hE' hn]
        simp only [updateLog_logsMap, hfold]
      | true =>
        rw [ordersWalk_step_true shop logId pg rest db stats hE' hn]
        simp only [ih, updateLog_logsMap, hfold]

theorem productsWalk_logsMap (shop : String) (logId : Nat) :
    ∀ (pages : List (Page ProductNode)) (db : Db) (stats : Stats),
    (productsWalk shop logId pages db stats).1.logs.map (fun r => r.sync_type) =
      db.logs.map (fun r => r.sync_type) := by
  intro pages
  induction pages with
  | nil => intro db stats; rfl
  | cons pg rest ih =>
    intro db stats
    by_cases hE : pg.edges.isEmpty
    · simp only [productsWalk, hE, if_true, ite_true]
    · have hE' : pg.edges.isEmpty = false := by simpa using hE
      have hfold := foldl_productEdgeStep_logs shop pg.edges (db, stats)
      cases hn : pg.pageInfo.hasNextPage with
      | false =>
        rw [productsWalk_step_last shop logId pg rest db stats hE' hn]
        simp only [updateLog_logsMap, hfold]
      | true =>
        rw [productsWalk_step_true shop logId pg rest db stats hE' hn]
        simp only [ih, updateLog_logsMap, hfold]

theorem syncProducts_logsTypes (env : ApiEnv) (shop : String) (db : Db) :
    (syncProducts env shop db).1.logs.map (fun r => r.sync_type) =
      db.logs.map (fun r => r.sync_type) ++ ["products"] := by
  unfold syncProducts
  cases hauth : getAuth (createSyncLog db shop "products").1 shop with
  | none =>
    simp only [hauth, updateLog_logsMap]
    simp [createSyncLog, tick]
  | some tok =>
    simp only [hauth, updateLog_logsMap, productsWalk_logsMap]
    simp [createSyncLog, tick]

theorem syncCustomers_logsTypes (env : ApiEnv) (shop : String) (db : Db) :
    (syncCustomers env shop db).1.logs.map (fun r => r.sync_type) =
      db.logs.map (fun r => r.sync_type) ++ ["customers"] := by
  unfold syncCustomers
  cases hauth : getAuth (createSyncLog db shop "customers").1 shop with
  | none =>
    simp only [hauth, updateLog_logsMap]
    simp [createSyncLog, tick]
  | some tok =>
    simp only [hauth, updateLog_logsMap, customersWalk_logs]
    simp [createSyncLog, tick]

theorem syncOrders_logsTypes (env : ApiEnv) (shop : String) (db : Db) :
    (syncOrders env shop db).1.logs.map (fun r => r.sync_type) =
      db.logs.map (fun r => r.sync_type) ++ ["orders"] := by
  unfold syncOrders
  cases hauth : getAuth (createSyncLog db shop "orders").1 shop with
  | none =>
    simp only [hauth, updateLog_logsMap]
    simp [createSyncLog, tick]
  | some tok =>
    simp only [hauth, updateLog_logsMap, ordersWalk_logsMap]
    simp [createSyncLog, tick]

/-- `sync_shop_info` touches only the shops table (and id/clock);
in particular it never touches the run-log store. -/
theorem syncShopInfo_frame (env : ApiEnv) (shop : String) (db : Db) :
    (syncShopInfo env shop db).1.auth = db.auth ∧
    (syncShopInfo env shop db).1.products = db.products ∧
    (syncShopInfo env shop db).1.variants = db.variants ∧
    (syncShopInfo env shop db).1.customers = db.customers ∧
    (syncShopInfo env shop db).1.orders = db.orders ∧
    (syncShopInfo env shop db).1.lineItems = db.lineItems ∧
    (syncShopInfo env shop db).1.logs = db.logs := by
  cases hauth : getAuth db shop with
  | none =>
    simp only [syncShopInfo, hauth]
    and_intros <;> (first | rfl | trivial)
  | some tok =>
    cases hs : env.shopInfo with
    | none =>
      simp only [syncShopInfo, hauth, hs]
      and_intros <;> (first | rfl | trivial)
    | some sdata =>
      cases hf : db.shops.find? (fun r => r.shop_domain == shop) <;>
        · simp only [syncShopInfo, hauth, hs, hf]
          and_intros <;> (first | rfl | trivial)

theorem syncShopInfo_noAuth (env : ApiEnv) (shop : String) (db : Db)
    (hauth : getAuth db shop = none) :
    syncShopInfo env shop db = (db, false) := by
  simp [syncShopInfo, hauth]

theorem ordersWalk_ordFrame (shop : String) (logId : Nat) :
    ∀ (pages : List (Page OrderNode)) (db : Db) (stats : Stats),
    (ordersWalk shop logId pages db stats).1.auth = db.auth ∧
    (ordersWalk shop logId pages db stats).1.shops = db.shops := by
  intro pages
  induction pages with
  | nil => intro db stats; exact ⟨rfl, rfl⟩
  | cons pg rest ih =>
    intro db stats
    by_cases hE : pg.edges.isEmpty
    · simp only [ordersWalk, hE, if_true, ite_true]
      and_intros <;> (first | rfl | trivial)
    · have hE' : pg.edges.isEmpty = false := by simpa using hE
      have hfold := foldl_orderEdgeStep_frame shop pg.edges (db, stats)
      cases hn : pg.pageInfo.hasNextPage with
      | false =>
        rw [ordersWalk_step_last shop logId pg rest db stats hE' hn]
        exact ⟨hfold.1, hfold.2.1⟩
      | true =>
        rw [ordersWalk_step_true shop logId pg rest db stats hE' hn]
        refine ⟨?_, ?_⟩
        · rw [(ih _ _).1]
          exact hfold.1
        · rw [(ih _ _).2]
          exact hfold.2.1

theorem syncOrders_shops (env : ApiEnv) (shop : String) (db : Db) :
    (syncOrders env shop db).1.shops = db.shops ∧
    (syncOrders env shop db).1.auth = db.auth := by
  unfold syncOrders
  cases hauth : getAuth (createSyncLog db shop "orders").1 shop with
  | none =>
    simp only [hauth]
    exact ⟨rfl, rfl⟩
  | some tok =>
    simp only [hauth]
    have hw := ordersWalk_ordFrame shop (createSyncLog db shop "orders").2
      env.orderPages (createSyncLog db shop "orders").1 ⟨0, 0, 0, 0⟩
    exact ⟨hw.2, hw.1⟩

/-- C10: `full_sync` always attempts all four phases.  Part 1 (for all
inputs): the run-log store after `full_sync` is the old store plus
exactly three new run records, of types `products`, `customers`,
`orders`, in that order — regardless of how the shop-profile phase
fared.  Part 2: with no stored token (auth data missing),
`sync_shop_info` swallows the failure and returns `False` with the
state untouched, and `full_sync` still proceeds — the three entity
syncs run (creating their run records, per part 1) while the shops
table stays unchanged throughout. -/
theorem c10_theorem :
    (∀ (env : ApiEnv) (shop : String) (db : Db),
      (fullSync env shop db).1.logs.map (fun r => r.sync_type) =
        db.logs.map (fun r => r.sync_type) ++ ["products", "customers", "orders"]) ∧
    (∀ (env : ApiEnv) (shop : String) (db : Db),
      getAuth db shop = none →
      syncShopInfo env shop db = (db, false) ∧
      (fullSync env shop db).1.shops = db.shops) := by
  constructor
  · intro env shop db
    unfold fullSync
    rw [syncOrders_logsTypes, syncCustomers_logsTypes, syncProducts_logsTypes,
      (syncShopInfo_frame env shop db).2.2.2.2.2.2]
    simp [List.append_assoc]
  · intro env shop db hauth
    have hsi := syncShopInfo_noAuth env shop db hauth
    refine ⟨hsi, ?_⟩
    unfold fullSync
    rw [hsi]
    rw [(syncOrders_shops env shop _).1,
      (syncCustomers_custFrame env shop _).2.1,
      (syncProducts_prodFrame env shop _).2.1]

/-- Witness for `c10_theorem` at the concrete tokenless store. -/
theorem c10_witness :
    ((fullSync envEmpty "s1.myshopify.com" dbNoAuth).1.logs.map
      (fun r => r.sync_type) = ["products", "customers", "orders"]) ∧
    syncShopInfo envEmpty "s1.myshopify.com" dbNoAuth = (dbNoAuth, false) ∧
    (fullSync envEmpty "s1.myshopify.com" dbNoAuth).1.shops = [] :=
  ⟨c10_theorem.1 envEmpty "s1.myshopify.com" dbNoAuth,
   (c10_theorem.2 envEmpty "s1.myshopify.com" dbNoAuth (by decide)).1,
   (c10_theorem.2 envEmpty "s1.myshopify.com" dbNoAuth (by decide)).2⟩

/-! ### C8 machinery: digit printers and canonical ISO-8601 inputs -/

/-- ASCII digit character for `n % 10`-sized values. -/
def digCh (n : Nat) : Char := Char.ofNat (48 + n)

/-- Two-digit zero-padded print of `n % 100`. -/
def pad2 (n : Nat) : List Char := [digCh (n / 10 % 10), digCh (n % 10)]

/-- The 19-character `YYYY-MM-DDTHH:MM:SS` print of a wall-clock time. -/
def isoCore (y mo d h mi s : Nat) : List Char :=
  pad2 (y / 100) ++ pad2 (y % 100) ++ '-' :: pad2 mo ++ '-' :: pad2 d ++
    'T' :: pad2 h ++ ':' :: pad2 mi ++ ':' :: pad2 s

theorem digCh_isDigit (k : Nat) : (digCh (k % 10)).isDigit = true := by
  have h : k % 10 < 10 := by omega
  revert h
  generalize k % 10 = m
  intro h
  interval_cases m <;> decide

theorem digCh_toNat (k : Nat) : (digCh (k % 10)).toNat = 48 + k % 10 := by
  have h : k % 10 < 10 := by omega
  revert h
  generalize k % 10 = m
  intro h
  interval_cases m <;> decide

theorem digCh_ne_Z (k : Nat) : ('Z' = digCh (k % 10)) = False := by
  have h : k % 10 < 10 := by omega
  revert h
  generalize k % 10 = m
  intro h
  simp only [eq_iff_iff, iff_false]
  interval_cases m <;> decide

theorem parse2_digs (a b : Nat) :
    parse2 (digCh (a % 10)) (digCh (b % 10)) = some ((a % 10) * 10 + b % 10) := by
  simp [parse2, digCh_isDigit, digCh_toNat]

/-- `str.replace("Z", rep)` is the identity on strings without a `Z`. -/
theorem replaceFuel_noZ (rep : List Char) :
    ∀ fuel cs, 'Z' ∉ cs → replaceFuel ['Z'] rep fuel cs = cs := by
  intro fuel
  induction fuel with
  | zero => intro cs _; cases cs <;> rfl
  | succ n ih =>
    intro cs hz
    cases cs with
    | nil => rfl
    | cons c cs =>
      have hc : ('Z' == c) = false := by
        simp only [beq_eq_false_iff_ne, ne_eq]
        intro he
        exact hz (he ▸ List.mem_cons_self c cs)
      simp only [replaceFuel]
      rw [if_neg]
      · rw [ih cs (fun hm => hz (List.mem_cons_of_mem c hm))]
      · simp [List.isPrefixOf, hc]

theorem replaceL_noZ (rep cs : List Char) (hz : 'Z' ∉ cs) :
    replaceL ['Z'] rep cs = cs :=
  replaceFuel_noZ rep cs.length cs hz

/-- On a non-empty `Z`-free string, `_parse_datetime` is `fromisoformat`
on the raw characters, whichever offset-detection branch fires. -/
theorem parse_datetime_noZ (cs : List Char) (h0 : cs ≠ [])
    (hz : 'Z' ∉ cs) :
    parse_datetime (some (String.mk cs)) = pyFromIsoL cs := by
  have hlast : ¬ cs.getLast? = some 'Z' := by
    intro heq
    obtain ⟨hne, hz'⟩ := List.mem_getLast?_eq_getLast heq
    exact hz (hz' ▸ List.getLast_mem hne)
  show (if cs = [] then none
    else if cs.getLast? = some 'Z' then pyFromIsoL cs.dropLast
    else if cs.contains '+' || 2 < cs.count '-' then
      pyFromIsoL (replaceL ['Z'] ['+', '0', '0', ':', '0', '0'] cs)
    else pyFromIsoL cs) = pyFromIsoL cs
  rw [if_neg h0, if_neg hlast]
  by_cases hb : (cs.contains '+' || decide (2 < cs.count '-')) = true
  · rw [if_pos hb, replaceL_noZ _ _ hz]
  · rw [if_neg hb]

/-- On a string ending in a literal `Z`, `_parse_datetime` is
`fromisoformat` with the `Z` stripped — no UTC marker is attached. -/
theorem parse_datetime_Z (cs : List Char) :
    parse_datetime (some (String.mk (cs ++ ['Z']))) = pyFromIsoL cs := by
  show (if cs ++ ['Z'] = [] then none
    else if (cs ++ ['Z']).getLast? = some 'Z' then pyFromIsoL (cs ++ ['Z']).dropLast
    else if (cs ++ ['Z']).contains '+' || 2 < (cs ++ ['Z']).count '-' then
      pyFromIsoL (replaceL ['Z'] ['+', '0', '0', ':', '0', '0'] (cs ++ ['Z']))
    else pyFromIsoL (cs ++ ['Z'])) = pyFromIsoL cs
  rw [if_neg (by simp), if_pos (by rw [List.getLast?_concat]), List.dropLast_concat]

theorem pyFromIsoL_isoCore (y mo d h mi s : Nat)
    (hy : 1 ≤ y ∧ y ≤ 9999) (hmo : 1 ≤ mo ∧ mo ≤ 12)
    (hd : 1 ≤ d ∧ d ≤ daysInMonth y mo)
    (hh : h ≤ 23) (hmi : mi ≤ 59) (hs : s ≤ 59) :
    pyFromIsoL (isoCore y mo d h mi s) = some ⟨y, mo, d, h, mi, s, none⟩ := by
  have e1 : ((y / 100 / 10 % 10) * 10 + y / 100 % 10) * 100 +
      ((y % 100 / 10 % 10) * 10 + y % 100 % 10) = y := by omega
  have e2 : (mo / 10 % 10) * 10 + mo % 10 = mo := by omega
  have hd31 : daysInMonth y mo ≤ 31 := by
    unfold daysInMonth
    split
    · split <;> omega
    · split <;> omega
  have e3 : (d / 10 % 10) * 10 + d % 10 = d := by omega
  have e4 : (h / 10 % 10) * 10 + h % 10 = h := by omega
  have e5 : (mi / 10 % 10) * 10 + mi % 10 = mi := by omega
  have e6 : (s / 10 % 10) * 10 + s % 10 = s := by omega
  simp only [isoCore, pad2, List.cons_append, List.nil_append]
  simp only [pyFromIsoL, parse2_digs, Option.bind_eq_bind', Option.some_bind]
  rw [e1, e2, e3, e4, e5, e6]
  unfold mkDT
  rw [if_pos ⟨hy.1, hy.2, hmo.1, hmo.2, hd.1, hd.2, hh, hmi, hs⟩]

theorem pyFromIsoL_isoOffset (y mo d h mi s oh om : Nat)
    (hy : 1 ≤ y ∧ y ≤ 9999) (hmo : 1 ≤ mo ∧ mo ≤ 12)
    (hd : 1 ≤ d ∧ d ≤ daysInMonth y mo)
    (hh : h ≤ 23) (hmi : mi ≤ 59) (hs : s ≤ 59)
    (hoh : oh ≤ 23) (hom : om ≤ 59) :
    pyFromIsoL (isoCore y mo d h mi s ++ '+' :: pad2 oh ++ ':' :: pad2 om) =
      some ⟨y, mo, d, h, mi, s, some ((oh * 60 + om : Nat) : Int)⟩ ∧
    pyFromIsoL (isoCore y mo d h mi s ++ '-' :: pad2 oh ++ ':' :: pad2 om) =
      some ⟨y, mo, d, h, mi, s, some (-((oh * 60 + om : Nat) : Int))⟩ := by
  have e1 : ((y / 100 / 10 % 10) * 10 + y / 100 % 10) * 100 +
      ((y % 100 / 10 % 10) * 10 + y % 100 % 10) = y := by omega
  have e2 : (mo / 10 % 10) * 10 + mo % 10 = mo := by omega
  have hd31 : daysInMonth y mo ≤ 31 := by
    unfold daysInMonth
    split
    · split <;> omega
    · split <;> omega
  have e3 : (d / 10 % 10) * 10 + d % 10 = d := by omega
  have e4 : (h / 10 % 10) * 10 + h % 10 = h := by omega
  have e5 : (mi / 10 % 10) * 10 + mi % 10 = mi := by omega
  have e6 : (s / 10 % 10) * 10 + s % 10 = s := by omega
  have e7 : (oh / 10 % 10) * 10 + oh % 10 = oh := by omega
  have e8 : (om / 10 % 10) * 10 + om % 10 = om := by omega
  have hrange : om ≤ 59 ∧ oh * 60 + om ≤ 1439 := ⟨hom, by omega⟩
  constructor
  · simp only [isoCore, pad2, List.cons_append, List.nil_append]
    simp only [pyFromIsoL, parse2_digs, Option.bind_eq_bind', Option.some_bind]
    rw [e1, e2, e3, e4, e5, e6, e7, e8]
    rw [if_pos hrange, if_pos trivial]
    unfold mkDT
    rw [if_pos ⟨hy.1, hy.2, hmo.1, hmo.2, hd.1, hd.2, hh, hmi, hs⟩]
  · simp only [isoCore, pad2, List.cons_append, List.nil_append]
    simp only [pyFromIsoL, parse2_digs, Option.bind_eq_bind', Option.some_bind]
    rw [e1, e2, e3, e4, e5, e6, e7, e8]
    rw [if_pos hrange, if_neg (by decide), if_pos trivial]
    unfold mkDT
    rw [if_pos ⟨hy.1, hy.2, hmo.1, hmo.2, hd.1, hd.2, hh, hmi, hs⟩]

theorem Z_not_mem_isoOffset (y mo d h mi s oh om : Nat) (sg : Char)
    (hsg : sg ≠ 'Z') :
    'Z' ∉ isoCore y mo d h mi s ++ sg :: pad2 oh ++ ':' :: pad2 om := by
  have hsg2 : ('Z' = sg) = False := eq_false fun he => hsg he.symm
  simp only [isoCore, pad2, List.cons_append, List.nil_append, List.mem_cons,
    List.not_mem_nil, or_false, digCh_ne_Z, false_or, hsg2]
  decide

/-- C8 (amended): `_parse_datetime` accepts ISO-8601 timestamps both
with a literal trailing `Z` and with an explicit numeric `±HH:MM`
offset, and maps an absent, empty or unparsable input to `None` rather
than raising; however it does **not** normalize to UTC: the `Z` form
yields a *naive* datetime carrying the same wall-clock fields (the `Z`
is stripped and no tzinfo is attached), and the explicit-offset form
retains the original offset verbatim with unconverted clock fields. -/
theorem c8_theorem (y mo d h mi s oh om : Nat)
    (hy : 1 ≤ y ∧ y ≤ 9999) (hmo : 1 ≤ mo ∧ mo ≤ 12)
    (hd : 1 ≤ d ∧ d ≤ daysInMonth y mo)
    (hh : h ≤ 23) (hmi : mi ≤ 59) (hs : s ≤ 59)
    (hoh : oh ≤ 23) (hom : om ≤ 59) :
    parse_datetime none = none ∧
    parse_datetime (some "") = none ∧
    parse_datetime (some "not-a-timestamp") = none ∧
    parse_datetime (some (String.mk (isoCore y mo d h mi s ++ ['Z']))) =
      some ⟨y, mo, d, h, mi, s, none⟩ ∧
    parse_datetime (some (String.mk (isoCore y mo d h mi s ++
        '+' :: pad2 oh ++ ':' :: pad2 om))) =
      some ⟨y, mo, d, h, mi, s, some ((oh * 60 + om : Nat) : Int)⟩ ∧
    parse_datetime (some (String.mk (isoCore y mo d h mi s ++
        '-' :: pad2 oh ++ ':' :: pad2 om))) =
      some ⟨y, mo, d, h, mi, s, some (-((oh * 60 + om : Nat) : Int))⟩ := by
  have hoff := pyFromIsoL_isoOffset y mo d h mi s oh om hy hmo hd hh hmi hs hoh hom
  refine ⟨rfl, rfl, by decide, ?_, ?_, ?_⟩
  · rw [parse_datetime_Z, pyFromIsoL_isoCore y mo d h mi s hy hmo hd hh hmi hs]
  · rw [parse_datetime_noZ _ (by simp [isoCore, pad2])
      (Z_not_mem_isoOffset y mo d h mi s oh om '+' (by decide)), hoff.1]
  · rw [parse_datetime_noZ _ (by simp [isoCore, pad2])
      (Z_not_mem_isoOffset y mo d h mi s oh om '-' (by decide)), hoff.2]

theorem c8_witness :
    parse_datetime (some (String.mk (isoCore 2024 1 15 10 30 0 ++ ['Z']))) =
      some ⟨2024, 1, 15, 10, 30, 0, none⟩ ∧
    parse_datetime (some (String.mk (isoCore 2024 1 15 10 30 0 ++
        '+' :: pad2 5 ++ ':' :: pad2 30))) =
      some ⟨2024, 1, 15, 10, 30, 0, some (330 : Int)⟩ := by
  have := c8_theorem 2024 1 15 10 30 0 5 30 (by decide) (by decide) (by decide)
    (by decide) (by decide) (by decide) (by decide) (by decide)
  exact ⟨this.2.2.2.1, this.2.2.2.2.1⟩

/-! ### C5 machinery: replace-all semantics of the line-item sync -/

/-- Field correspondence between a remote line-item node and the row
inserted for it under a given parent order. -/
def liMatches (o : OrderRow) (it : LineItemNode) (r : LineItemRow) : Prop :=
  r.order_id = o.id ∧ r.shop_domain = o.shop_domain ∧
  r.shopify_line_item_id = stripLineItemGid it.id ∧
  r.shopify_order_id = o.shopify_order_id ∧
  r.title = it.title ∧ r.name = it.name ∧ r.quantity = it.quantity

theorem buildLineItem_matches (products : List ProductRow) (o : OrderRow)
    (nid clk : Nat) (it : LineItemNode) (r : LineItemRow)
    (h : buildLineItem products o nid clk it = some r) : liMatches o it r := by
  unfold buildLineItem at h
  cases hp : parseDec (it.priceAmount.getD "0") with
  | none => rw [hp] at h; exact absurd h (by simp)
  | some price =>
    cases hd : parseDec (it.discountAmount.getD "0") with
    | none => rw [hp, hd] at h; exact absurd h (by simp)
    | some disc =>
      rw [hp, hd] at h
      simp only [Option.some.injEq] at h
      rw [← h]
      exact ⟨rfl, rfl, rfl, rfl, rfl, rfl, rfl⟩

theorem buildLineItemsAux_spec (products : List ProductRow) (o : OrderRow) :
    ∀ (items : List LineItemNode) (acc rows : List LineItemRow) (nid clk nid' clk' : Nat),
    buildLineItemsAux products o items acc nid clk = some (rows, nid', clk') →
    ∃ rest, rows = acc ++ rest ∧ List.Forall₂ (liMatches o) items rest := by
  intro items
  induction items with
  | nil =>
    intro acc rows nid clk nid' clk' h
    simp only [buildLineItemsAux, Option.some.injEq, Prod.mk.injEq] at h
    exact ⟨[], by simp [h.1.symm], List.Forall₂.nil⟩
  | cons it rest ih =>
    intro acc rows nid clk nid' clk' h
    unfold buildLineItemsAux at h
    cases hb : buildLineItem products o nid clk it with
    | none => rw [hb] at h; exact absurd h (by simp)
    | some row =>
      rw [hb] at h
      obtain ⟨rest', he, hf⟩ := ih (acc ++ [row]) rows (nid + 1) (clk + 1) nid' clk' h
      refine ⟨row :: rest', by simpa using he,
        List.Forall₂.cons (buildLineItem_matches products o nid clk it row hb) hf⟩

theorem forall2_li_order (o : OrderRow) :
    ∀ (items : List LineItemNode) (rest : List LineItemRow),
    List.Forall₂ (liMatches o) items rest → ∀ r ∈ rest, r.order_id = o.id := by
  intro items rest h
  induction h with
  | nil => intro r hr; cases hr
  | cons hp _ ih =>
    intro r hr
    rcases List.mem_cons.mp hr with hr | hr
    · rw [hr]; exact hp.1
    · exact ih r hr

/-- C5 (confirmed): for every order upsert whose line-item insert phase
succeeds, `_sync_order_line_items` (`syncOrderLineItems`) first deletes
every stored `OrderLineItem` row of that order and then inserts exactly
the rows built from the current remote set: afterwards the rows whose
`order_id` matches the order are precisely the freshly built `rows`
(each corresponding one-to-one, in order, to the remote nodes), no
previously stored line item of the order survives to be merged, and the
line items of every other order are untouched. -/
theorem c5_theorem (db : Db) (o : OrderRow) (items : List LineItemNode)
    (rows : List LineItemRow) (nid clk : Nat)
    (hb : buildLineItemsAux db.products o items [] db.nextId db.clock =
      some (rows, nid, clk)) :
    (syncOrderLineItems db o items).2 = true ∧
    (syncOrderLineItems db o items).1.lineItems.filter
        (fun li => li.order_id == o.id) = rows ∧
    (syncOrderLineItems db o items).1.lineItems.filter
        (fun li => !(li.order_id == o.id)) =
      db.lineItems.filter (fun li => !(li.order_id == o.id)) ∧
    List.Forall₂ (liMatches o) items rows := by
  obtain ⟨rest, hre, hf⟩ :=
    buildLineItemsAux_spec db.products o items [] rows db.nextId db.clock nid clk hb
  have hrows : rows = rest := by simpa using hre
  have hall : ∀ r ∈ rows, r.order_id = o.id := by
    rw [hrows]
    exact forall2_li_order o items rest hf
  have hres : syncOrderLineItems db o items =
      ({ { db with lineItems := db.lineItems.filter (fun li => !(li.order_id == o.id)) } with
          lineItems := db.lineItems.filter (fun li => !(li.order_id == o.id)) ++ rows,
          nextId := nid, clock := clk }, true) := by
    unfold syncOrderLineItems
    simp only [hb]
  rw [hres]
  refine ⟨rfl, ?_, ?_, hrows ▸ hf⟩
  · have h1 : List.filter (fun li => li.order_id == o.id)
        (db.lineItems.filter (fun li => !(li.order_id == o.id))) = [] :=
      List.filter_eq_nil_iff.mpr (fun r hr => by
        have := (List.mem_filter.mp hr).2
        simp_all)
    have h2 : List.filter (fun li => li.order_id == o.id) rows = rows :=
      List.filter_eq_self.mpr (fun r hr => by simp [hall r hr])
    simp only [List.filter_append, h1, h2, List.nil_append]
  · have h1 : List.filter (fun li => !(li.order_id == o.id)) rows = [] :=
      List.filter_eq_nil_iff.mpr (fun r hr => by simp [hall r hr])
    have h2 : List.filter (fun li => !(li.order_id == o.id))
        (db.lineItems.filter (fun li => !(li.order_id == o.id))) =
        db.lineItems.filter (fun li => !(li.order_id == o.id)) :=
      List.filter_eq_self.mpr (fun r hr => (List.mem_filter.mp hr).2)
    simp only [List.filter_append, h1, h2, List.append_nil]

/-- A stored order row for the C5/C6 witnesses. -/
def orow : OrderRow :=
  { id := 7, shop_domain := "s1.myshopify.com", customer_id := none,
    shopify_order_id := "900", shopify_customer_id := "", order_number := "1",
    name := "#1", email := none, phone := none,
    total_price := ⟨false, 0, 0⟩, subtotal_price := ⟨false, 0, 0⟩,
    total_tax := ⟨false, 0, 0⟩, total_discounts := ⟨false, 0, 0⟩,
    total_shipping := ⟨false, 0, 0⟩, currency := "USD",
    financial_status := "PAID", fulfillment_status := "FULFILLED",
    billing_address := none, shipping_address := none, fulfillments := [],
    tracking_numbers := [], tracking_urls := [], tags := [], note := none,
    created_at_shopify := none, updated_at_shopify := none,
    processed_at := none, closed_at := none, cancelled_at := none,
    cancel_reason := none, last_synced := 0, created_at := 0,
    updated_at := none }

/-- A remote line-item node whose referenced product may be absent. -/
def linode (i : String) (pid : Option String) : LineItemNode :=
  { id := i, productId := pid, variantId := none, title := "Tee",
    name := "Tee", variantTitle := none, sku := none, vendor := none,
    productType := none, quantity := 2, priceAmount := some "12.50",
    discountAmount := none, serviceName := none, fulfillmentStatus := none,
    customAttributes := [], taxLines := [] }

/-- A stale stored line item of order 7 that a re-sync must discard,
plus one line item of another order (id 8) that must survive. -/
def lirowOld (oid : Nat) : LineItemRow :=
  { id := 3, order_id := oid, product_id := none,
    shop_domain := "s1.myshopify.com", shopify_line_item_id := "L0",
    shopify_order_id := "900", shopify_product_id := "",
    shopify_variant_id := "", title := "Old", name := "Old",
    variant_title := none, sku := none, vendor := none,
    product_type := none, quantity := 1, price := ⟨false, 0, 0⟩,
    total_discount := ⟨false, 0, 0⟩, fulfillment_service := none,
    fulfillment_status := none, properties := [], tax_lines := [],
    created_at := 0, updated_at := none }

/-- Store holding a stale line item of order 7 and one of order 8. -/
def dbC5 : Db :=
  { auth := [⟨"s1.myshopify.com", "tok", true⟩], shops := [], products := [],
    variants := [], customers := [], orders := [orow],
    lineItems := [lirowOld 7, lirowOld 8], logs := [], nextId := 10,
    clock := 5 }

theorem c5_witness :
    (syncOrderLineItems dbC5 orow [linode "L1" none]).2 = true ∧
    (syncOrderLineItems dbC5 orow [linode "L1" none]).1.lineItems.filter
        (fun li => li.order_id == orow.id) =
      [{ id := 10, order_id := 7, product_id := none,
         shop_domain := "s1.myshopify.com", shopify_line_item_id := "L1",
         shopify_order_id := "900", shopify_product_id := "",
         shopify_variant_id := "", title := "Tee", name := "Tee",
         variant_title := none, sku := none, vendor := none,
         product_type := none, quantity := 2, price := ⟨false, 1250, 2⟩,
         total_discount := ⟨false, 0, 0⟩, fulfillment_service := none,
         fulfillment_status := none, properties := [], tax_lines := [],
         created_at := 5, updated_at := none }] ∧
    (syncOrderLineItems dbC5 orow [linode "L1" none]).1.lineItems.filter
        (fun li => !(li.order_id == orow.id)) =
      dbC5.lineItems.filter (fun li => !(li.order_id == orow.id)) := by
  have h := c5_theorem dbC5 orow [linode "L1" none] _ 11 6 rfl
  exact ⟨h.1, h.2.1, h.2.2.1⟩

/-! ### C6: absent referenced product ⇒ NULL `product_id`, no failure -/

theorem buildLineItem_isSome (products : List ProductRow) (o : OrderRow)
    (nid clk : Nat) (it : LineItemNode)
    (hp : (parseDec (it.priceAmount.getD "0")).isSome = true)
    (hd : (parseDec (it.discountAmount.getD "0")).isSome = true) :
    (buildLineItem products o nid clk it).isSome = true := by
  obtain ⟨p, hp'⟩ := Option.isSome_iff_exists.mp hp
  obtain ⟨d, hd'⟩ := Option.isSome_iff_exists.mp hd
  unfold buildLineItem
  rw [hp', hd']
  rfl

/-- C6 (confirmed): when the product referenced by a line item has no
matching `(shop_domain, shopify_product_id)` row in the local store,
`_sync_order_line_items` (`buildLineItem` / `syncOrderLineItems`) still
inserts the line item successfully with `product_id = none`: the built
row exists with a NULL product reference, the insert phase reports
success (so the enclosing order is not counted as failed on account of
this item), the row is stored for the order, and the phase's success is
independent of the products table altogether. -/
theorem c6_theorem (db : Db) (o : OrderRow) (it : LineItemNode)
    (habsent : findProduct db.products o.shop_domain
      (stripProductGid (it.productId.getD "")) = none)
    (hp : (parseDec (it.priceAmount.getD "0")).isSome = true)
    (hd : (parseDec (it.discountAmount.getD "0")).isSome = true) :
    ∃ r, buildLineItem db.products o db.nextId db.clock it = some r ∧
      r.product_id = none ∧
      (syncOrderLineItems db o [it]).2 = true ∧
      (syncOrderLineItems db o [it]).1.lineItems.filter
        (fun li => li.order_id == o.id) = [r] ∧
      ∀ products' : List ProductRow,
        (buildLineItem products' o db.nextId db.clock it).isSome = true := by
  obtain ⟨p, hp'⟩ := Option.isSome_iff_exists.mp hp
  obtain ⟨d, hd'⟩ := Option.isSome_iff_exists.mp hd
  have hpid : (if truthyStr it.productId then
      match findProduct db.products o.shop_domain
          (stripProductGid (it.productId.getD "")) with
      | some pr => some pr.id
      | none => none
    else none) = (none : Option Nat) := by
    cases htr : truthyStr it.productId
    · rw [if_neg (by simp)]
    · rw [if_pos rfl, habsent]
  have hbuild : buildLineItem db.products o db.nextId db.clock it =
      some
        { id := db.nextId
          order_id := o.id
          product_id := none
          shop_domain := o.shop_domain
          shopify_line_item_id := stripLineItemGid it.id
          shopify_order_id := o.shopify_order_id
          shopify_product_id := stripProductGid (it.productId.getD "")
          shopify_variant_id := stripVariantGid (it.variantId.getD "")
          title := it.title
          name := it.name
          variant_title := it.variantTitle
          sku := it.sku
          vendor := it.vendor
          product_type := it.productType
          quantity := it.quantity
          price := p
          total_discount := d
          fulfillment_service := it.serviceName
          fulfillment_status := it.fulfillmentStatus
          properties := it.customAttributes
          tax_lines := it.taxLines
          created_at := db.clock
          updated_at := none } := by
    unfold buildLineItem
    rw [hp', hd', hpid]
  obtain ⟨row, hbuild2, hpidnone, hoid⟩ :
      ∃ row, buildLineItem db.products o db.nextId db.clock it = some row ∧
        row.product_id = none ∧ row.order_id = o.id := ⟨_, hbuild, rfl, rfl⟩
  have hb1 : buildLineItemsAux db.products o [it] [] db.nextId db.clock =
      some ([row], db.nextId + 1, db.clock + 1) := by
    unfold buildLineItemsAux
    rw [hbuild2]
    rfl
  have hres : syncOrderLineItems db o [it] =
      ({ { db with lineItems := db.lineItems.filter (fun li => !(li.order_id == o.id)) } with
          lineItems := db.lineItems.filter (fun li => !(li.order_id == o.id)) ++ [row],
          nextId := db.nextId + 1, clock := db.clock + 1 }, true) := by
    unfold syncOrderLineItems
    simp only [hb1]
  have h1 : List.filter (fun li => li.order_id == o.id)
      (db.lineItems.filter (fun li => !(li.order_id == o.id))) = [] :=
    List.filter_eq_nil_iff.mpr (fun r hr => by
      have := (List.mem_filter.mp hr).2
      simp_all)
  refine ⟨row, hbuild2, hpidnone, ?_, ?_, fun products' =>
    buildLineItem_isSome products' o db.nextId db.clock it hp hd⟩
  · rw [hres]
  · rw [hres]
    simp only [List.filter_append, h1, List.nil_append]
    simp [hoid]

/-- Store with one registered order, no products at all, one token. -/
def dbC6 : Db :=
  { auth := [⟨"s1.myshopify.com", "tok", true⟩], shops := [], products := [],
    variants := [], customers := [], orders := [orow], lineItems := [],
    logs := [], nextId := 20, clock := 9 }

theorem c6_witness :
    ∃ r, buildLineItem dbC6.products orow dbC6.nextId dbC6.clock
        (linode "L2" (some "77")) = some r ∧
      r.product_id = none ∧
      (syncOrderLineItems dbC6 orow [linode "L2" (some "77")]).2 = true ∧
      (syncOrderLineItems dbC6 orow [linode "L2" (some "77")]).1.lineItems.filter
        (fun li => li.order_id == orow.id) = [r] ∧
      ∀ products' : List ProductRow,
        (buildLineItem products' orow dbC6.nextId dbC6.clock
          (linode "L2" (some "77"))).isSome = true :=
  c6_theorem dbC6 orow (linode "L2" (some "77")) rfl rfl rfl

/-! ### C4 machinery: the bookkeeping-erased view of stored rows

`last_synced` and the `onupdate`-managed `updated_at` are rewritten by
every run; every other column of a product/variant row is either part
of the immutable identity (`id`, natural key, `created_at`) or sourced
from the remote record.  Erasing the two bookkeeping columns therefore
yields exactly the view that an idempotent re-run must preserve. -/

/-- A product row with its two bookkeeping columns erased. -/
def prodCore (r : ProductRow) : ProductRow :=
  { r with last_synced := 0, updated_at := none }

/-- A variant row with its two bookkeeping columns erased. -/
def varCore (r : VariantRow) : VariantRow :=
  { r with last_synced := 0, updated_at := none }

/-- The row already carries the remote values of node `n` (overwriting
it from `n` changes nothing outside the bookkeeping columns). -/
def prodSyncedTo (n : ProductNode) (r : ProductRow) : Prop :=
  prodCore (productFields n r 0 none) = prodCore r

/-- The variant row already carries the remote values of variant `v`
as parsed into `(price, cap, w)`. -/
def varSyncedTo (v : VariantNode) (price : Dec) (cap w : Option Dec)
    (r : VariantRow) : Prop :=
  varCore (variantFields v price cap w r 0 none) = varCore r

/-- The nodes actually processed by `productsWalk`, mirroring its
control flow (an edge-less page breaks the walk; a terminal page stops
after its own edges). -/
def walkedNodes : List (Page ProductNode) → List ProductNode
  | [] => []
  | pg :: rest =>
    if pg.edges.isEmpty then []
    else pg.edges ++ (if pg.pageInfo.hasNextPage then walkedNodes rest else [])

/-- The store `(ps, vs)` is in sync with node `n`: the product row is
present and synced, and (when its decimals parse) every variant of `n`
has a present, synced row keyed by the product's local id. -/
def prodStateSynced (shop : String) (ps : List ProductRow)
    (vs : List VariantRow) (n : ProductNode) : Prop :=
  ∃ r, findProduct ps shop (stripProductGid n.id) = some r ∧
    prodSyncedTo n r ∧
    ∀ v ∈ n.variants, ∀ price cap w,
      variantDecimals v = some (price, cap, w) →
      ∃ rv, vs.find? (fun x => x.product_id == r.id &&
          x.shopify_variant_id == stripVariantGid v.id) = some rv ∧
        varSyncedTo v price cap w rv

/-- Re-run invariant: the current state's products and variants agree
with the reference state on everything but bookkeeping columns, and
every product's `created_at` predates the clock. -/
def SimInv (PS : List ProductRow) (VS : List VariantRow) (db : Db) : Prop :=
  List.Forall₂ (fun a b => prodCore a = prodCore b) db.products PS ∧
  List.Forall₂ (fun a b => varCore a = varCore b) db.variants VS ∧
  ∀ r ∈ db.products, r.created_at < db.clock

/-! #### Generic list lemmas -/

theorem forall2_core_refl {α : Type} (f : α → α) (l : List α) :
    List.Forall₂ (fun a b => f a = f b) l l :=
  List.forall₂_same.mpr (fun _ _ => rfl)

theorem forall2_core_map {α : Type} (f : α → α) :
    ∀ {l l' : List α}, List.Forall₂ (fun a b => f a = f b) l l' →
    l.map f = l'.map f := by
  intro l l' h
  induction h with
  | nil => rfl
  | cons hab _ ih => simp [ih, hab]

/-- `find?` returns corresponding elements on lists that agree up to
`f`, for a predicate reading only the `f`-view. -/
theorem find?_core_rel {α : Type} (f : α → α) (p : α → Bool)
    (hp : ∀ a b, f a = f b → p a = p b) :
    ∀ {l l' : List α}, List.Forall₂ (fun a b => f a = f b) l l' →
    (l.find? p = none ∧ l'.find? p = none) ∨
      ∃ a b, l.find? p = some a ∧ l'.find? p = some b ∧ f a = f b := by
  intro l l' h
  induction h with
  | nil => exact Or.inl ⟨rfl, rfl⟩
  | @cons a b l l' hab _ ih =>
    cases hpa : p a with
    | false =>
      have hpb : p b = false := (hp a b hab) ▸ hpa
      simpa [List.find?_cons, hpa, hpb] using ih
    | true =>
      have hpb : p b = true := (hp a b hab) ▸ hpa
      exact Or.inr ⟨a, b, by simp [List.find?_cons, hpa],
        by simp [List.find?_cons, hpb], hab⟩

/-- Replacing the first `p`-match by something with the same `f`-view
preserves pointwise `f`-agreement. -/
theorem updateFirst_forall2_found {α : Type} (f : α → α) (p : α → Bool)
    (g : α → α) :
    ∀ {l l' : List α}, List.Forall₂ (fun a b => f a = f b) l l' →
    ∀ a, l.find? p = some a → f (g a) = f a →
    List.Forall₂ (fun a b => f a = f b) (updateFirst p g l) l' := by
  intro l l' h
  induction h with
  | nil => intro a ha; cases ha
  | @cons x y l l' hxy hrest ih =>
    intro a ha hga
    cases hpx : p x with
    | true =>
      have hax : a = x := by
        rw [List.find?_cons_of_pos _ hpx] at ha
        exact (Option.some.injEq _ _ ▸ ha).symm
      simp only [updateFirst, hpx, if_true]
      have hgx : f (g x) = f x := hax ▸ hga
      exact List.Forall₂.cons (hgx.trans hxy) hrest
    | false =>
      rw [List.find?_cons_of_neg _ (by simp [hpx])] at ha
      simp only [updateFirst, hpx, Bool.false_eq_true, if_false]
      exact List.Forall₂.cons hxy (ih a ha hga)

/-- Replacing the first `p`-match by a fixed `p`-element makes it the
first match. -/
theorem find?_updateFirst_const {α : Type} (p : α → Bool) (b : α) :
    ∀ (l : List α) (a : α), l.find? p = some a → p b = true →
    (updateFirst p (fun _ => b) l).find? p = some b := by
  intro l
  induction l with
  | nil => intro a ha; cases ha
  | cons x xs ih =>
    intro a ha hb
    cases hpx : p x with
    | true => simp [updateFirst, hpx, List.find?_cons, hb]
    | false =>
      rw [List.find?_cons_of_neg _ (by simp [hpx])] at ha
      simp only [updateFirst, hpx, Bool.false_eq_true, if_false]
      rw [List.find?_cons_of_neg _ (by simp [hpx])]
      exact ih a ha hb

/-- Members of `updateFirst p g l` are members of `l` or the image of
a member. -/
theorem mem_updateFirst {α : Type} (p : α → Bool) (g : α → α) :
    ∀ (l : List α) (x : α), x ∈ updateFirst p g l →
    x ∈ l ∨ ∃ a ∈ l, x = g a := by
  intro l
  induction l with
  | nil => intro x hx; cases hx
  | cons y ys ih =>
    intro x hx
    cases hpy : p y with
    | true =>
      rw [updateFirst, if_pos hpy] at hx
      rcases List.mem_cons.mp hx with hx | hx
      · exact Or.inr ⟨y, List.mem_cons_self y ys, hx⟩
      · exact Or.inl (List.mem_cons_of_mem y hx)
    | false =>
      rw [updateFirst, if_neg (by simp [hpy])] at hx
      rcases List.mem_cons.mp hx with hx | hx
      · exact Or.inl (hx ▸ List.mem_cons_self y ys)
      · rcases ih x hx with hx | ⟨a, ha, hax⟩
        · exact Or.inl (List.mem_cons_of_mem y hx)
        · exact Or.inr ⟨a, List.mem_cons_of_mem y ha, hax⟩

/-! #### Core-view congruence -/

/-- The core view of an overwritten product row depends only on the
node and on the core view of the row being overwritten. -/
theorem prodCore_productFields_congr (n : ProductNode) (a b : ProductRow)
    (h : prodCore a = prodCore b) (ls ls' : Nat) (ua ua' : Option Nat) :
    prodCore (productFields n a ls ua) = prodCore (productFields n b ls' ua') := by
  have h1 : a.id = b.id := show (prodCore a).id = (prodCore b).id from congrArg ProductRow.id h
  have h2 : a.shop_domain = b.shop_domain := show (prodCore a).shop_domain = (prodCore b).shop_domain from congrArg ProductRow.shop_domain h
  have h3 : a.shopify_product_id = b.shopify_product_id :=
    show (prodCore a).shopify_product_id = (prodCore b).shopify_product_id from congrArg ProductRow.shopify_product_id h
  have h4 : a.created_at = b.created_at := show (prodCore a).created_at = (prodCore b).created_at from congrArg ProductRow.created_at h
  simp [prodCore, productFields, h1, h2, h3, h4]

/-- The core view of an overwritten variant row depends only on the
variant data and on the core view of the row being overwritten. -/
theorem varCore_variantFields_congr (v : VariantNode) (price : Dec)
    (cap w : Option Dec) (a b : VariantRow) (h : varCore a = varCore b)
    (ls ls' : Nat) (ua ua' : Option Nat) :
    varCore (variantFields v price cap w a ls ua) =
      varCore (variantFields v price cap w b ls' ua') := by
  have h1 : a.id = b.id := show (varCore a).id = (varCore b).id from congrArg VariantRow.id h
  have h2 : a.product_id = b.product_id := show (varCore a).product_id = (varCore b).product_id from congrArg VariantRow.product_id h
  have h3 : a.shop_domain = b.shop_domain := show (varCore a).shop_domain = (varCore b).shop_domain from congrArg VariantRow.shop_domain h
  have h4 : a.shopify_variant_id = b.shopify_variant_id :=
    show (varCore a).shopify_variant_id = (varCore b).shopify_variant_id from congrArg VariantRow.shopify_variant_id h
  have h5 : a.shopify_product_id = b.shopify_product_id :=
    show (varCore a).shopify_product_id = (varCore b).shopify_product_id from congrArg VariantRow.shopify_product_id h
  have h6 : a.created_at = b.created_at := show (varCore a).created_at = (varCore b).created_at from congrArg VariantRow.created_at h
  simp [varCore, variantFields, h1, h2, h3, h4, h5, h6]

/-- Overwriting a row whose core agrees with a row synced to `n` does
not change its core view. -/
theorem prodCore_update_neutral (n : ProductNode) (a r : ProductRow)
    (hcore : prodCore a = prodCore r) (hs : prodSyncedTo n r)
    (ls : Nat) (ua : Option Nat) :
    prodCore (productFields n a ls ua) = prodCore a :=
  ((prodCore_productFields_congr n a r hcore ls 0 ua none).trans hs).trans hcore.symm

/-- The variant analogue of `prodCore_update_neutral`. -/
theorem varCore_update_neutral (v : VariantNode) (price : Dec)
    (cap w : Option Dec) (a r : VariantRow) (hcore : varCore a = varCore r)
    (hs : varSyncedTo v price cap w r) (ls : Nat) (ua : Option Nat) :
    varCore (variantFields v price cap w a ls ua) = varCore a :=
  ((varCore_variantFields_congr v price cap w a r hcore ls 0 ua none).trans hs).trans
    hcore.symm

/-- The product natural-key predicate reads only core fields. -/
theorem kp_core (shop pid : String) (a b : ProductRow)
    (h : prodCore a = prodCore b) :
    (a.shop_domain == shop && a.shopify_product_id == pid) =
      (b.shop_domain == shop && b.shopify_product_id == pid) := by
  have h2 : a.shop_domain = b.shop_domain :=
    show (prodCore a).shop_domain = (prodCore b).shop_domain from
      congrArg ProductRow.shop_domain h
  have h3 : a.shopify_product_id = b.shopify_product_id :=
    show (prodCore a).shopify_product_id = (prodCore b).shopify_product_id from
      congrArg ProductRow.shopify_product_id h
  rw [h2, h3]

/-- The variant natural-key predicate reads only core fields. -/
theorem kv_core (pidNat : Nat) (vid : String) (a b : VariantRow)
    (h : varCore a = varCore b) :
    (a.product_id == pidNat && a.shopify_variant_id == vid) =
      (b.product_id == pidNat && b.shopify_variant_id == vid) := by
  have h2 : a.product_id = b.product_id :=
    show (varCore a).product_id = (varCore b).product_id from
      congrArg VariantRow.product_id h
  have h3 : a.shopify_variant_id = b.shopify_variant_id :=
    show (varCore a).shopify_variant_id = (varCore b).shopify_variant_id from
      congrArg VariantRow.shopify_variant_id h
  rw [h2, h3]

/-! #### Step equations of the variant loop -/

theorem syncVariantsAux_cons_none (p : ProductRow) (v : VariantNode)
    (rest : List VariantNode) (vs : List VariantRow) (nid clk : Nat)
    (hd : variantDecimals v = none) :
    syncVariantsAux p (v :: rest) vs nid clk = none := by
  simp only [syncVariantsAux, hd]

theorem syncVariantsAux_cons_update (p : ProductRow) (v : VariantNode)
    (rest : List VariantNode) (vs : List VariantRow) (nid clk : Nat)
    (price : Dec) (cap w : Option Dec) (a : VariantRow)
    (hd : variantDecimals v = some (price, cap, w))
    (hf : vs.find? (fun r => r.product_id == p.id &&
      r.shopify_variant_id == stripVariantGid v.id) = some a) :
    syncVariantsAux p (v :: rest) vs nid clk =
      syncVariantsAux p rest
        (updateFirst (fun r => r.product_id == p.id &&
          r.shopify_variant_id == stripVariantGid v.id)
          (fun r => variantFields v price cap w r clk (some (clk + 1))) vs)
        nid (clk + 2) := by
  simp only [syncVariantsAux, hd, hf]

theorem syncVariantsAux_cons_create (p : ProductRow) (v : VariantNode)
    (rest : List VariantNode) (vs : List VariantRow) (nid clk : Nat)
    (price : Dec) (cap w : Option Dec)
    (hd : variantDecimals v = some (price, cap, w))
    (hf : vs.find? (fun r => r.product_id == p.id &&
      r.shopify_variant_id == stripVariantGid v.id) = none) :
    syncVariantsAux p (v :: rest) vs nid clk =
      syncVariantsAux p rest
        (vs ++ [variantFields v price cap w
          (newVariantRow p (stripVariantGid v.id) nid (clk + 1)) clk none])
        (nid + 1) (clk + 2) := by
  simp only [syncVariantsAux, hd, hf]

theorem syncVariantsAux_clock_mono (p : ProductRow) :
    ∀ (vars : List VariantNode) (vs : List VariantRow) (nid clk : Nat)
    (vs' : List VariantRow) (nid' clk' : Nat),
    syncVariantsAux p vars vs nid clk = some (vs', nid', clk') → clk ≤ clk' := by
  intro vars
  induction vars with
  | nil =>
    intro vs nid clk vs' nid' clk' h
    simp only [syncVariantsAux, Option.some.injEq, Prod.mk.injEq] at h
    omega
  | cons v rest ih =>
    intro vs nid clk vs' nid' clk' h
    cases hd : variantDecimals v with
    | none => rw [syncVariantsAux_cons_none p v rest vs nid clk hd] at h; cases h
    | some pcw =>
      obtain ⟨price, cap, w⟩ := pcw
      cases hf : vs.find? (fun r => r.product_id == p.id &&
          r.shopify_variant_id == stripVariantGid v.id) with
      | some a =>
        rw [syncVariantsAux_cons_update p v rest vs nid clk price cap w a hd hf] at h
        have := ih _ _ _ _ _ _ h
        omega
      | none =>
        rw [syncVariantsAux_cons_create p v rest vs nid clk price cap w hd hf] at h
        have := ih _ _ _ _ _ _ h
        omega

/-- `_sync_product_variants` never touches the products table. -/
theorem syncVariants_products (db : Db) (p : ProductRow) (vs : List VariantNode) :
    (syncVariants db p vs).1.products = db.products := by
  unfold syncVariants
  split <;> rfl

/-- `_sync_product_variants` never rewinds the clock. -/
theorem syncVariants_clock_mono (db : Db) (p : ProductRow) (vs : List VariantNode) :
    db.clock ≤ (syncVariants db p vs).1.clock := by
  unfold syncVariants
  cases h : syncVariantsAux p vs db.variants db.nextId db.clock with
  | none => exact Nat.le_refl _
  | some r =>
    obtain ⟨vs', nid', clk'⟩ := r
    exact syncVariantsAux_clock_mono p vs db.variants db.nextId db.clock vs' nid' clk' h

/-! #### Run-2 simulation: variants -/

/-- Re-running the variant loop over a state whose variant rows are
core-equal to a synced reference store changes no core view. -/
theorem syncVariantsAux_sim (p : ProductRow) (VS : List VariantRow) :
    ∀ (vars : List VariantNode),
    (∀ v ∈ vars, ∀ price cap w,
      variantDecimals v = some (price, cap, w) →
      ∃ rv, VS.find? (fun x => x.product_id == p.id &&
          x.shopify_variant_id == stripVariantGid v.id) = some rv ∧
        varSyncedTo v price cap w rv) →
    ∀ (vs : List VariantRow) (nid clk : Nat)
    (vs' : List VariantRow) (nid' clk' : Nat),
    List.Forall₂ (fun a b => varCore a = varCore b) vs VS →
    syncVariantsAux p vars vs nid clk = some (vs', nid', clk') →
    List.Forall₂ (fun a b => varCore a = varCore b) vs' VS := by
  intro vars
  induction vars with
  | nil =>
    intro _ vs nid clk vs' nid' clk' hvs h
    simp only [syncVariantsAux, Option.some.injEq, Prod.mk.injEq] at h
    exact h.1 ▸ hvs
  | cons v rest ih =>
    intro hvars vs nid clk vs' nid' clk' hvs h
    cases hd : variantDecimals v with
    | none => rw [syncVariantsAux_cons_none p v rest vs nid clk hd] at h; cases h
    | some pcw =>
      obtain ⟨price, cap, w⟩ := pcw
      obtain ⟨rv, hfindS, hsync⟩ := hvars v (List.mem_cons_self v rest) price cap w hd
      rcases find?_core_rel varCore
          (fun x => x.product_id == p.id &&
            x.shopify_variant_id == stripVariantGid v.id)
          (fun a b hab => kv_core p.id (stripVariantGid v.id) a b hab) hvs with
        ⟨hn1, hn2⟩ | ⟨a, b, hfa, hfb, hab⟩
      · rw [hfindS] at hn2; cases hn2
      · have hbrv : b = rv := by
          rw [hfb] at hfindS
          exact Option.some.inj hfindS
        subst hbrv
        rw [syncVariantsAux_cons_update p v rest vs nid clk price cap w a hd hfa] at h
        refine ih (fun v' hv' => hvars v' (List.mem_cons_of_mem v hv')) _ _ _ _ _ _ ?_ h
        exact updateFirst_forall2_found varCore _ _ hvs a hfa
          (varCore_update_neutral v price cap w a b hab hsync clk (some (clk + 1)))

/-! #### Run-2 simulation: a single product -/

/-- The update branch of `_sync_single_product`, written out. -/
theorem syncSingleProduct_update_eq (shop : String) (db : Db) (n : ProductNode)
    (p : ProductRow)
    (hf : findProduct db.products shop (stripProductGid n.id) = some p) :
    syncSingleProduct shop db n =
      syncVariants
        { db with
          clock := db.clock + 2
          products := updateFirst
            (fun r => r.shop_domain == shop &&
              r.shopify_product_id == stripProductGid n.id)
            (fun _ => productFields n p db.clock (some (db.clock + 1)))
            db.products }
        (productFields n p db.clock (some (db.clock + 1))) n.variants := by
  unfold syncSingleProduct
  simp only [hf, tick]

/-- Re-running `_sync_single_product` over a state core-equal to a
synced reference store: the invariant is preserved, the clock grows,
and the upserted row is found with a fresh `updated_at` and an old
`created_at`. -/
theorem syncSingleProduct_sim (shop : String) (PS : List ProductRow)
    (VS : List VariantRow) (db : Db) (n : ProductNode)
    (hH : prodStateSynced shop PS VS n)
    (hinv : SimInv PS VS db) :
    SimInv PS VS (syncSingleProduct shop db n).1 ∧
    db.clock ≤ (syncSingleProduct shop db n).1.clock ∧
    ∃ p, findProduct db.products shop (stripProductGid n.id) = some p ∧
      findProduct (syncSingleProduct shop db n).1.products shop
          (stripProductGid n.id) =
        some (productFields n p db.clock (some (db.clock + 1))) ∧
      p.created_at < db.clock := by
  obtain ⟨hP, hV, hclk⟩ := hinv
  obtain ⟨r, hfindS, hsyncr, hvars⟩ := hH
  rcases find?_core_rel prodCore
      (fun x => x.shop_domain == shop &&
        x.shopify_product_id == stripProductGid n.id)
      (fun a b hab => kp_core shop (stripProductGid n.id) a b hab) hP with
    ⟨hn1, hn2⟩ | ⟨a, b, hfa, hfb, hab⟩
  · rw [show PS.find? (fun x => x.shop_domain == shop &&
        x.shopify_product_id == stripProductGid n.id) =
        findProduct PS shop (stripProductGid n.id) from rfl, hfindS] at hn2
    cases hn2
  · have hbr : b = r := by
      rw [show PS.find? (fun x => x.shop_domain == shop &&
        x.shopify_product_id == stripProductGid n.id) =
        findProduct PS shop (stripProductGid n.id) from rfl, hfindS] at hfb
      exact (Option.some.inj hfb).symm
    subst hbr
    have hfa' : findProduct db.products shop (stripProductGid n.id) = some a := hfa
    have hamem : a ∈ db.products := List.mem_of_find?_eq_some hfa
    have haclk : a.created_at < db.clock := hclk a hamem
    have hkpa : (a.shop_domain == shop &&
        a.shopify_product_id == stripProductGid n.id) = true := by
      have := List.find?_some hfa
      simpa using this
    rw [syncSingleProduct_update_eq shop db n a hfa']
    have hpid : (productFields n a db.clock (some (db.clock + 1))).id = b.id :=
      show a.id = b.id from
        show (prodCore a).id = (prodCore b).id from congrArg ProductRow.id hab
    have hP' : List.Forall₂ (fun x y => prodCore x = prodCore y)
        (updateFirst (fun x => x.shop_domain == shop &&
          x.shopify_product_id == stripProductGid n.id)
          (fun _ => productFields n a db.clock (some (db.clock + 1)))
          db.products) PS :=
      updateFirst_forall2_found prodCore _ _ hP a hfa
        (prodCore_update_neutral n a b hab hsyncr db.clock (some (db.clock + 1)))
    have hfind2 : (updateFirst (fun x => x.shop_domain == shop &&
          x.shopify_product_id == stripProductGid n.id)
          (fun _ => productFields n a db.clock (some (db.clock + 1)))
          db.products).find? (fun x => x.shop_domain == shop &&
          x.shopify_product_id == stripProductGid n.id) =
        some (productFields n a db.clock (some (db.clock + 1))) :=
      find?_updateFirst_const _ _ db.products a hfa hkpa
    have hmem2 : ∀ x ∈ updateFirst (fun x => x.shop_domain == shop &&
          x.shopify_product_id == stripProductGid n.id)
          (fun _ => productFields n a db.clock (some (db.clock + 1)))
          db.products, x.created_at < db.clock + 2 := by
      intro x hx
      rcases mem_updateFirst _ _ db.products x hx with hx | ⟨y, _, hxy⟩
      · exact lt_trans (hclk x hx) (by omega)
      · rw [hxy]
        show a.created_at < db.clock + 2
        omega
    set dbU : Db :=
      { db with
        clock := db.clock + 2
        products := updateFirst (fun x => x.shop_domain == shop &&
          x.shopify_product_id == stripProductGid n.id)
          (fun _ => productFields n a db.clock (some (db.clock + 1)))
          db.products } with hdbU
    unfold syncVariants
    cases haux : syncVariantsAux (productFields n a db.clock (some (db.clock + 1)))
        n.variants dbU.variants dbU.nextId dbU.clock with
    | none =>
      refine ⟨⟨hP', hV, hmem2⟩, by show db.clock ≤ db.clock + 2; omega, a, hfa', hfind2, haclk⟩
    | some res =>
      obtain ⟨vs', nid', clk'⟩ := res
      have hclk' : dbU.clock ≤ clk' :=
        syncVariantsAux_clock_mono _ _ _ _ _ _ _ _ haux
      have hV' : List.Forall₂ (fun x y => varCore x = varCore y) vs' VS := by
        refine syncVariantsAux_sim _ VS n.variants ?_ dbU.variants dbU.nextId
          dbU.clock vs' nid' clk' hV haux
        intro v hv price cap w hd
        obtain ⟨rv, h1, h2⟩ := hvars v hv price cap w hd
        refine ⟨rv, ?_, h2⟩
        rw [show (productFields n a db.clock (some (db.clock + 1))).id = b.id from hpid]
        exact h1
      refine ⟨⟨hP', hV', ?_⟩, ?_, a, hfa', hfind2, haclk⟩
      · intro x hx
        exact lt_of_lt_of_le (hmem2 x hx) (by simpa using hclk')
      · show db.clock ≤ clk'
        have : db.clock + 2 ≤ clk' := by simpa using hclk'
        omega

/-- One page-loop iteration of a re-run preserves the invariant and
never increments `created`. -/
theorem productEdgeStep_sim (shop : String) (PS : List ProductRow)
    (VS : List VariantRow) (x : Db × Stats) (n : ProductNode)
    (hH : prodStateSynced shop PS VS n) (hinv : SimInv PS VS x.1) :
    SimInv PS VS (productEdgeStep shop x n).1 ∧
    x.1.clock ≤ (productEdgeStep shop x n).1.clock ∧
    (productEdgeStep shop x n).2.created = x.2.created := by
  obtain ⟨hinv', hclk2, p, hfp, hfp2, hpc⟩ :=
    syncSingleProduct_sim shop PS VS x.1 n hH hinv
  cases hs : syncSingleProduct shop x.1 n with
  | mk db2 flag =>
    rw [hs] at hinv' hclk2 hfp2
    cases flag with
    | false =>
      unfold productEdgeStep
      simp only [hs]
      exact ⟨hinv', hclk2, trivial⟩
    | true =>
      have hclass : classifyProduct db2.products shop (stripProductGid n.id) =
          some true := by
        unfold classifyProduct
        rw [hfp2]
        show some (decide (p.created_at < x.1.clock + 1)) = some true
        simp only [Option.some.injEq, decide_eq_true_eq]
        omega
      unfold productEdgeStep
      simp only [hs, hclass]
      exact ⟨hinv', hclk2, trivial⟩

/-- The per-page fold of a re-run preserves the invariant and never
increments `created`. -/
theorem foldl_productEdgeStep_sim (shop : String) (PS : List ProductRow)
    (VS : List VariantRow) :
    ∀ (edges : List ProductNode) (x : Db × Stats),
    (∀ n ∈ edges, prodStateSynced shop PS VS n) → SimInv PS VS x.1 →
    SimInv PS VS (List.foldl (productEdgeStep shop) x edges).1 ∧
    (List.foldl (productEdgeStep shop) x edges).2.created = x.2.created := by
  intro edges
  induction edges with
  | nil => intro x _ hinv; exact ⟨hinv, rfl⟩
  | cons e es ih =>
    intro x hH hinv
    rw [List.foldl_cons]
    obtain ⟨h1, _, h3⟩ :=
      productEdgeStep_sim shop PS VS x e (hH e (List.mem_cons_self e es)) hinv
    obtain ⟨h4, h5⟩ := ih (productEdgeStep shop x e)
      (fun n hn => hH n (List.mem_cons_of_mem e hn)) h1
    exact ⟨h4, h5.trans h3⟩

/-- The per-page checkpoint write preserves the invariant. -/
theorem updateLog_sim (PS : List ProductRow) (VS : List VariantRow)
    (db : Db) (i : Nat) (st : String) (k : LogKw) (h : SimInv PS VS db) :
    SimInv PS VS (updateLog db i st k) := by
  obtain ⟨h1, h2, h3⟩ := h
  refine ⟨h1, h2, ?_⟩
  intro x hx
  show x.created_at < db.clock + 1
  exact lt_trans (h3 x hx) (by omega)

/-- The whole pagination loop of a re-run preserves the invariant and
keeps `created` at its entry value. -/
theorem productsWalk_sim (shop : String) (logId : Nat) (PS : List ProductRow)
    (VS : List VariantRow) :
    ∀ (pages : List (Page ProductNode)) (db : Db) (stats : Stats),
    (∀ n ∈ walkedNodes pages, prodStateSynced shop PS VS n) →
    SimInv PS VS db →
    SimInv PS VS (productsWalk shop logId pages db stats).1 ∧
    (productsWalk shop logId pages db stats).2.1.created = stats.created := by
  intro pages
  induction pages with
  | nil => intro db stats _ hinv; exact ⟨hinv, rfl⟩
  | cons pg rest ih =>
    intro db stats hH hinv
    by_cases hE : pg.edges.isEmpty
    · simp only [productsWalk, hE, if_true, ite_true]
      exact ⟨hinv, trivial⟩
    · have hE' : pg.edges.isEmpty = false := by simpa using hE
      have hHpg : ∀ n ∈ pg.edges, prodStateSynced shop PS VS n := by
        intro n hn
        refine hH n ?_
        unfold walkedNodes
        rw [if_neg (by simp [hE'])]
        exact List.mem_append_left _ hn
      obtain ⟨hfold, hcre⟩ :=
        foldl_productEdgeStep_sim shop PS VS pg.edges (db, stats) hHpg hinv
      cases hn : pg.pageInfo.hasNextPage with
      | false =>
        rw [productsWalk_step_last shop logId pg rest db stats hE' hn]
        exact ⟨updateLog_sim PS VS _ _ _ _ hfold, hcre⟩
      | true =>
        rw [productsWalk_step_true shop logId pg rest db stats hE' hn]
        have hHrest : ∀ n ∈ walkedNodes rest, prodStateSynced shop PS VS n := by
          intro n hnr
          refine hH n ?_
          unfold walkedNodes
          rw [if_neg (by simp [hE'])]
          rw [hn]
          exact List.mem_append_right _ (by simpa using hnr)
        obtain ⟨h1, h2⟩ := ih _ _ hHrest (updateLog_sim PS VS _ _ _ _ hfold)
        exact ⟨h1, h2.trans hcre⟩

/-- C4 (amended): re-running `sync_products` against an unchanged
remote data set over a state already in sync with it (as any completed
run leaves behind) reports `records_created = 0` and overwrites every
remote-sourced column with the identical value: product and variant
rows keep their ids, natural keys, `created_at` and all remote-sourced
fields (their bookkeeping-erased views are unchanged), and every other
table is untouched.  The re-run is **not** a strict no-op, however: the
separate counterexample shows `last_synced` and the `onupdate`-managed
`updated_at` are rewritten, refuting the claim's "leaves every
previously stored field value unchanged". -/
theorem c4_theorem (env : ApiEnv) (shop : String) (S : Db) (tok : String)
    (hauth : getAuth S shop = some tok)
    (hsync : ∀ n ∈ walkedNodes env.productPages,
      prodStateSynced shop S.products S.variants n)
    (hclk : ∀ r ∈ S.products, r.created_at < S.clock) :
    (syncProducts env shop S).2.1.created = 0 ∧
    (syncProducts env shop S).1.products.map prodCore =
      S.products.map prodCore ∧
    (syncProducts env shop S).1.variants.map varCore =
      S.variants.map varCore ∧
    prodFrame (syncProducts env shop S).1 S := by
  have hauth2 : getAuth (createSyncLog S shop "products").1 shop = some tok := by
    rw [getAuth_createSyncLog]
    exact hauth
  have hinv0 : SimInv S.products S.variants (createSyncLog S shop "products").1 := by
    refine ⟨forall2_core_refl prodCore _, forall2_core_refl varCore _, ?_⟩
    intro r hr
    show r.created_at < S.clock + 1
    exact lt_trans (hclk r hr) (by omega)
  obtain ⟨hfin, hcre⟩ := productsWalk_sim shop (createSyncLog S shop "products").2
    S.products S.variants env.productPages (createSyncLog S shop "products").1
    ⟨0, 0, 0, 0⟩ hsync hinv0
  obtain ⟨w1, w2, _⟩ := hfin
  refine ⟨?_, ?_, ?_, syncProducts_prodFrame env shop S⟩
  · unfold syncProducts
    simp only [hauth2]
    exact hcre
  · unfold syncProducts
    simp only [hauth2]
    exact forall2_core_map prodCore w1
  · unfold syncProducts
    simp only [hauth2]
    exact forall2_core_map varCore w2

theorem c4_witness :
    (syncProducts envTwoPages "s1.myshopify.com"
      (syncProducts envTwoPages "s1.myshopify.com" dbAuth).1).2.1.created = 0 ∧
    (syncProducts envTwoPages "s1.myshopify.com"
        (syncProducts envTwoPages "s1.myshopify.com" dbAuth).1).1.products.map
      prodCore =
      (syncProducts envTwoPages "s1.myshopify.com" dbAuth).1.products.map
        prodCore ∧
    (syncProducts envTwoPages "s1.myshopify.com"
        (syncProducts envTwoPages "s1.myshopify.com" dbAuth).1).1.variants.map
      varCore =
      (syncProducts envTwoPages "s1.myshopify.com" dbAuth).1.variants.map
        varCore ∧
    prodFrame (syncProducts envTwoPages "s1.myshopify.com"
        (syncProducts envTwoPages "s1.myshopify.com" dbAuth).1).1
      (syncProducts envTwoPages "s1.myshopify.com" dbAuth).1 := by
  refine c4_theorem envTwoPages "s1.myshopify.com"
    (syncProducts envTwoPages "s1.myshopify.com" dbAuth).1 "tok"
    (by decide) ?_ (by decide)
  intro n hn
  have hn' : n = pnode "1" ∨ n = pnode "2" ∨ n = pnode "3" := by
    simpa [walkedNodes, envTwoPages, List.mem_append, List.mem_cons] using hn
  rcases hn' with rfl | rfl | rfl
  · exact ⟨_, rfl, by unfold prodSyncedTo; decide, fun v hv => by simp [pnode] at hv⟩
  · exact ⟨_, rfl, by unfold prodSyncedTo; decide, fun v hv => by simp [pnode] at hv⟩
  · exact ⟨_, rfl, by unfold prodSyncedTo; decide, fun v hv => by simp [pnode] at hv⟩

end SyncModel
